import Mathlib

/-!
Verification development for the adaptive article relevance engine
(article query/filter engine, relevance tiering, topic extraction,
profile learning loop, feedback/accuracy scorer).

The Python source is shallowly embedded: SQLite rows become Lean
structures, REAL columns become `ℚ`, nullable columns become `Option`,
and each manager method becomes an executable Lean function.  SQL
statements are translated into list operations mirroring their
relational semantics (LEFT JOIN, WHERE, GROUP BY, ORDER BY,
LIMIT/OFFSET).  Python runtime faults that the source can hit
(for example comparing `None` with a float) are modelled with `Except`.
-/

namespace News

/-! ## String utilities

SQLite's default `LIKE` is case-insensitive for the ASCII range only,
and `lower()`/Python-level lowering agree with `Char.toLower` on ASCII.
All texts used in witnesses are ASCII, where these coincide exactly. -/
/-- Case-insensitive character comparison as used by SQLite `LIKE`
(ASCII-only case folding; `Char.toLower` folds exactly `A`-`Z`). -/
def ciEq (a b : Char) : Bool := a.toLower == b.toLower

/-- Lowercase a string (ASCII case folding, models `str.lower` / SQL
`LOWER` on the ASCII texts this development manipulates). -/
def lowerStr (s : String) : String := ⟨s.data.map Char.toLower⟩

/-- Generic prefix test: `q` is a prefix of `s` up to the character
comparison `eqf`. -/
def prefixBy (eqf : Char → Char → Bool) : List Char → List Char → Bool
  | [], _ => true
  | _ :: _, [] => false
  | c :: q, t :: s => eqf c t && prefixBy eqf q s

/-- Generic occurrence test: some suffix of `s` starts with `q`
(up to `eqf`), i.e. `q` occurs inside `s`. -/
def occursBy (eqf : Char → Char → Bool) (q : List Char) : List Char → Bool
  | [] => prefixBy eqf q []
  | c :: s => prefixBy eqf q (c :: s) || occursBy eqf q s

/-- Python's case-sensitive substring operator `in` on strings. -/
def containsCS (q s : String) : Bool := occursBy (fun a b => a == b) q.data s.data

/-- Case-insensitive (ASCII) substring occurrence. -/
def containsCI (q s : String) : Bool := occursBy ciEq q.data s.data

/-- The claim-side notion of case-sensitive substring occurrence:
`s` decomposes around an exact copy of `q`. -/
def OccursIn (q s : String) : Prop := ∃ pre post, s.data = pre ++ q.data ++ post

/-- The claim-side notion of ASCII-case-insensitive substring
occurrence: the lowercased text decomposes around the lowercased
query. -/
def OccursInCI (q s : String) : Prop :=
  ∃ pre post, (lowerStr s).data = pre ++ (lowerStr q).data ++ post

/-- Try a matcher on every suffix of the text (the backtracking a `%`
wildcard performs). -/
def likeStarAux (f : List Char → Bool) : List Char → Bool
  | [] => f []
  | t :: s => f (t :: s) || likeStarAux f s

/-- SQLite `LIKE` pattern matching (default collation: ASCII
case-insensitive; `%` matches any run, `_` any single character). -/
def likeM : List Char → List Char → Bool
  | [], s => s.isEmpty
  | p :: ps, s =>
    if p = '%' then likeStarAux (likeM ps) s
    else if p = '_' then
      match s with
      | [] => false
      | _ :: s => likeM ps s
    else
      match s with
      | [] => false
      | t :: s => ciEq p t && likeM ps s

/-- The SQL condition `s LIKE '%' || q || '%'` produced by the query
engine for every text filter. -/
def likeMatch (q s : String) : Bool := likeM ('%' :: (q.data ++ ['%'])) s.data

/-- A search string free of `LIKE` wildcard characters. -/
def noWild (q : String) : Bool := q.data.all (fun c => c != '%' && c != '_')

/-! ## Generic list helpers (relational plumbing) -/
/-- Concatenation of a list of row blocks (models the row stream a
join produces: one block per left-hand row). -/
def listJoin {α : Type} : List (List α) → List α
  | [] => []
  | l :: ls => l ++ listJoin ls

/-- Insert into a sorted list, used to model `ORDER BY` (any sorted
permutation is an admissible result of an SQL sort). -/
def insertLe {α : Type} (le : α → α → Bool) (x : α) : List α → List α
  | [] => [x]
  | y :: ys => if le x y then x :: y :: ys else y :: insertLe le x ys

/-- Insertion sort realising `ORDER BY` for a boolean comparator. -/
def sortLe {α : Type} (le : α → α → Bool) : List α → List α
  | [] => []
  | x :: xs => insertLe le x (sortLe le xs)

/-! ## Data model

Rows of the three SQLite tables created by `Database.init_database`.
`REAL` columns are embedded as `ℚ`, nullable columns as `Option`. -/
/-- A row of the `articles` table. -/
structure ArticleRow where
  id : Nat
  url : String
  title : String
  content : Option String
  summary : Option String
  deep_analysis : Option String
  source_name : String
  published_date : Option String
  fetched_date : String
  relevance_score : Option ℚ
  is_read : Bool
  created_at : String
  deriving DecidableEq

/-- A row of the `feedback` table. -/
structure FeedbackRow where
  id : Nat
  article_id : Nat
  rating : Int
  note : Option String
  created_at : String
  deriving DecidableEq

/-- A row of the `reader_profile` table (`topic` is the primary key). -/
structure ProfileRow where
  topic : String
  weight : ℚ
  source : String
  sample_count : Nat
  last_updated : String
  deriving DecidableEq

/-- The persistent store: the three tables. -/
structure NewsDB where
  articles : List ArticleRow
  feedback : List FeedbackRow
  reader_profile : List ProfileRow
  deriving DecidableEq

/-! ## ProfileManager -/
/-- Clamp a weight into `[0, 1]` (`max(0.0, min(1.0, weight))`). -/
def clamp01 (w : ℚ) : ℚ := max 0 (min 1 w)

/-- Row lookup in the profile by topic.  `get_profile` materialises a
topic-keyed dict; since `topic` is the table's primary key the lookup
is order-independent. -/
def lookupProfile (db : NewsDB) (topic : String) : Option ProfileRow :=
  db.reader_profile.find? (fun r => r.topic == topic)

/-- `ProfileManager.update_topic`: upsert of a profile row
(`INSERT ... ON CONFLICT(topic) DO UPDATE`), clamping the weight,
setting `sample_count` to 1 on insert and incrementing it on update. -/
def update_topic (topic : String) (weight : ℚ) (source : String) (now : String)
    (db : NewsDB) : NewsDB :=
  let w := clamp01 weight
  match lookupProfile db topic with
  | some _ =>
    { db with reader_profile := db.reader_profile.map (fun r =>
        if r.topic == topic then
          { r with weight := w, sample_count := r.sample_count + 1, last_updated := now }
        else r) }
  | none =>
    { db with reader_profile :=
        db.reader_profile ++ [⟨topic, w, source, 1, now⟩] }

/-- `ProfileManager.adjust_topic_weight`.  For an unknown topic the
source computes `new_weight = 0.5 + delta` and returns it without
clamping (only `update_topic` clamps the stored value); for a known
topic it clamps before both storing and returning. -/
def adjust_topic_weight (topic : String) (delta : ℚ) (now : String)
    (db : NewsDB) : NewsDB × ℚ :=
  match lookupProfile db topic with
  | none =>
    let new_weight := 1/2 + delta
    (update_topic topic new_weight "learned" now db, new_weight)
  | some row =>
    let new_weight := clamp01 (row.weight + delta)
    (update_topic topic new_weight row.source now db, new_weight)

/-- The fixed Swedish stop-word set of the topic extractor. -/
def stop_words : List String :=
  ["och", "eller", "med", "för", "av", "på", "i", "samt", "en", "ett", "den", "det", "om"]

/-- Split a character stream at whitespace (chunks between whitespace
runs; empty chunks are produced at runs and filtered by the caller,
matching Python `str.split()`). -/
def splitWsAux : List Char → List Char → List (List Char)
  | [], acc => [acc.reverse]
  | c :: cs, acc =>
    if c.isWhitespace then acc.reverse :: splitWsAux cs []
    else splitWsAux cs (c :: acc)

/-- Keywords of a profile topic: lowercase whitespace tokens, stop
words and tokens of length ≤ 2 removed. -/
def topicKeywords (topic : String) : List String :=
  ((((splitWsAux (lowerStr topic).data []).filter (fun w => w ≠ [])).map
    (fun w => (⟨w⟩ : String)))).filter
    (fun w => w ∉ stop_words && w.length > 2)

/-- `ProfileManager.extract_topics_from_text`: a topic matches when any
of its keywords occurs (Python `in`) in the lowercased
`title ++ " " ++ text`.  Topics are iterated in table order; with
`topic` as primary key the resulting set is order-independent. -/
def extract_topics_from_text (db : NewsDB) (text : String) (title : String) :
    List String :=
  let full_text := lowerStr (title ++ " " ++ text)
  (db.reader_profile.map (fun r => r.topic)).filter
    (fun t => (topicKeywords t).any (fun kw => containsCS kw full_text))

/-- The rating-to-delta table of `learn_from_feedback`
(`delta_map.get(rating, 0.0)`). -/
def delta_map (rating : Int) : ℚ :=
  if rating = 5 then 1/10
  else if rating = 4 then 1/20
  else if rating = 3 then 0
  else if rating = 2 then -(1/20)
  else if rating = 1 then -(1/10)
  else 0

/-- The text argument the learning loop hands to the extractor.
`article.get('content', '')` yields `None` when the stored content is
NULL (the key is present), and the f-string then renders it as the
literal string `"None"`. -/
def learnText (a : ArticleRow) : String :=
  match a.content with
  | some c => c
  | none => "None"

/-- Sequential weight adjustment over the matched topics, collecting
the `(topic, newWeight)` pairs in order. -/
def applyDeltas (delta : ℚ) (now : String) : List String → NewsDB → NewsDB × List (String × ℚ)
  | [], db => (db, [])
  | t :: ts, db =>
    let step := adjust_topic_weight t delta now db
    let rest := applyDeltas delta now ts step.1
    (rest.1, (t, step.2) :: rest.2)

/-- `ProfileManager.learn_from_feedback`: loads the article (no-op when
absent), extracts topics (no-op when none match), otherwise applies the
rating's delta to every matched topic. -/
def learn_from_feedback (article_id : Nat) (rating : Int) (now : String)
    (db : NewsDB) : NewsDB × Option (List (String × ℚ)) :=
  match db.articles.find? (fun a => a.id == article_id) with
  | none => (db, none)
  | some a =>
    let topics := extract_topics_from_text db (learnText a) a.title
    if topics = [] then (db, none)
    else
      let res := applyDeltas (delta_map rating) now topics db
      (res.1, some res.2)

/-! ## Claim C1: weight clamping in `adjust_topic_weight` -/
/-- The documented store invariant: every profile weight lies in
`[0, 1]` (every write goes through `update_topic`, which clamps). -/
def WeightsInRange (db : NewsDB) : Prop :=
  ∀ r ∈ db.reader_profile, 0 ≤ r.weight ∧ r.weight ≤ 1

instance (db : NewsDB) : Decidable (WeightsInRange db) :=
  List.decidableBAll _ db.reader_profile

/-- What `adjust_topic_weight` actually guarantees for `delta = ±10`:
the stored weight is exactly 1 (resp. 0); the returned value is the
clamped weight only when the topic already exists, while a freshly
created topic reports the unclamped `0.5 + delta`. -/
def AdjustClampSpec (db : NewsDB) (t now : String) : Prop :=
  ((lookupProfile (adjust_topic_weight t 10 now db).1 t).map (fun r => r.weight) =
      some 1) ∧
  ((lookupProfile (adjust_topic_weight t (-10) now db).1 t).map (fun r => r.weight) =
      some 0) ∧
  (lookupProfile db t = none →
    (adjust_topic_weight t 10 now db).2 = 21/2 ∧
    (adjust_topic_weight t (-10) now db).2 = -(19/2)) ∧
  (∀ row, lookupProfile db t = some row →
    (adjust_topic_weight t 10 now db).2 = 1 ∧
    (adjust_topic_weight t (-10) now db).2 = 0)

/-! ## Claims C4 and C5: the learning loop -/
/-- The store invariant that `topic` is the profile's primary key. -/
def TopicsNodup (db : NewsDB) : Prop :=
  (db.reader_profile.map (fun r => r.topic)).Nodup

instance (db : NewsDB) : Decidable (TopicsNodup db) :=
  List.nodupDecidable _

/-- What claim C4 asserts of one matched topic `t` sitting at weight
0.5: the feedback call succeeds, pairs every matched topic with its new
weight, and moves `t` by exactly the table delta of the rating. -/
def LearnSpec (db : NewsDB) (aid : Nat) (rating : Int) (now : String)
    (ts : List String) (t : String) : Prop :=
  ∃ db₂ updates, learn_from_feedback aid rating now db = (db₂, some updates) ∧
    updates.map Prod.fst = ts ∧
    (t, 1/2 + delta_map rating) ∈ updates ∧
    (rating = 5 → (t, 3/5) ∈ updates) ∧
    (rating = 4 → (t, 11/20) ∈ updates) ∧
    (rating = 3 → (t, 1/2) ∈ updates) ∧
    (rating = 2 → (t, 9/20) ∈ updates) ∧
    (rating = 1 → (t, 2/5) ∈ updates)

/-- Concrete profile row used by the C4 witness. -/
def row4 : ProfileRow := ProfileRow.mk "teknik" (1/2) "explicit" 1 "t0"

/-- Concrete article used by the C4 witness (its text mentions the
profile topic). -/
def a4 : ArticleRow :=
  ArticleRow.mk 1 "http://x/1" "Ny teknik idag" (some "mer om detta") none none
    "SrcA" none "f0" none false "c0"

/-- Concrete store used by the C4 witness. -/
def db4 : NewsDB := NewsDB.mk [a4] [] [row4]

/-- Concrete article used by the C5 witness. -/
def a5 : ArticleRow :=
  ArticleRow.mk 1 "http://x/5" "Hello" (some "world") none none "SrcA" none "f0"
    none false "c0"

/-- Concrete store used by the C5 witness: one article, empty profile
(so no topic can match). -/
def db5 : NewsDB := NewsDB.mk [a5] [] []

/-! ## Relevance tiering (`get_articles_tool`, grouped mode)

The tool receives article dicts from the query engine and classifies
each one.  `article.get('relevance_score', 0)` returns the stored
value — which is `None` for an unanalyzed article, since the key is
present — and CPython then raises `TypeError` on `max(None, 0.75)` or
`None >= 0.7`; that fault is modelled as `Except.error`. -/
/-- A feedback dict attached by the query engine's include-feedback
mode. -/
structure FbOut where
  rating : Int
  note : Option String
  created_at : String
  deriving DecidableEq

/-- An article dict as returned by the query engine (base columns plus
the optional attached feedback list). -/
structure OutArticle where
  base : ArticleRow
  feedback : Option (List FbOut)
  deriving DecidableEq

/-- `bool(article.get('deep_analysis'))`: true exactly for a present,
non-empty deep-analysis text. -/
def hasDeepText (a : OutArticle) : Bool :=
  match a.base.deep_analysis with
  | some s => s ≠ ""
  | none => false

/-- The effective score used for tiering: the deep-analysis floor
`max(score, 0.75)` when a non-empty deep analysis is present, the
stored score otherwise; `none` when the stored score is absent (the
case where CPython raises). -/
def effectiveScore (a : OutArticle) : Option ℚ :=
  match a.base.relevance_score with
  | none => none
  | some q => some (if hasDeepText a then max q (3/4) else q)

/-- Pure tier assignment: `≥ 0.7 → high`, `≥ 0.4 → medium`, else
`low`. -/
def tierOfScore (q : ℚ) : String :=
  if 7/10 ≤ q then "high" else if 2/5 ≤ q then "medium" else "low"

/-- An article dict annotated by the tiering loop. -/
structure TieredArticle where
  base : OutArticle
  has_deep_analysis : Bool
  presentation_hint : String
  tier : String
  deriving DecidableEq

/-- One iteration of the tiering loop over a single article. -/
def tierAnnotate (a : OutArticle) : Except Unit TieredArticle :=
  match effectiveScore a with
  | none => Except.error ()
  | some q =>
    if 7/10 ≤ q then Except.ok ⟨a, hasDeepText a, "full", "high"⟩
    else if 2/5 ≤ q then Except.ok ⟨a, hasDeepText a, "compact", "medium"⟩
    else Except.ok ⟨a, hasDeepText a, "minimal", "low"⟩

/-- The three tier lists the grouped mode accumulates. -/
structure TierLists where
  high : List TieredArticle
  medium : List TieredArticle
  low : List TieredArticle
  deriving DecidableEq

/-- The grouped tiering pass of `get_articles_tool`: left-to-right over
the input, appending each annotated article to exactly one tier list;
the first unanalyzed article aborts the pass with the `TypeError`. -/
def tierPass : List OutArticle → Except Unit TierLists
  | [] => Except.ok ⟨[], [], []⟩
  | a :: rest =>
    match tierAnnotate a with
    | Except.error e => Except.error e
    | Except.ok ta =>
      match tierPass rest with
      | Except.error e => Except.error e
      | Except.ok r =>
        if ta.tier = "high" then Except.ok ⟨ta :: r.high, r.medium, r.low⟩
        else if ta.tier = "medium" then Except.ok ⟨r.high, ta :: r.medium, r.low⟩
        else Except.ok ⟨r.high, r.medium, ta :: r.low⟩

/-- Tier membership predicate derived from the effective score. -/
def tierPred (tname : String) (a : OutArticle) : Bool :=
  match effectiveScore a with
  | some q => tierOfScore q == tname
  | none => false

/-- Every article of the list carries a stored relevance score (the
situation §4.2 describes: "a list of scored articles"). -/
def AllScored (l : List OutArticle) : Prop :=
  ∀ a ∈ l, a.base.relevance_score.isSome = true

instance (l : List OutArticle) : Decidable (AllScored l) :=
  List.decidableBAll _ l

/-- What claim C2 asserts of a successful grouped tiering pass: the
pass succeeds, the three tier lists reassemble the input exactly (a
permutation — no duplicates, no omissions), they are pairwise disjoint
by article identity, and the boundary scores 0.7 and 0.4 land in
`high` and `medium` respectively. -/
def TierPartition (l : List OutArticle) : Prop :=
  ∃ r : TierLists, tierPass l = Except.ok r ∧
    List.Perm (r.high.map (fun x => x.base) ++ r.medium.map (fun x => x.base) ++
      r.low.map (fun x => x.base)) l ∧
    (∀ a, a ∈ r.high.map (fun x => x.base) → a ∈ r.medium.map (fun x => x.base) → False) ∧
    (∀ a, a ∈ r.high.map (fun x => x.base) → a ∈ r.low.map (fun x => x.base) → False) ∧
    (∀ a, a ∈ r.medium.map (fun x => x.base) → a ∈ r.low.map (fun x => x.base) → False) ∧
    (∀ a ∈ l, effectiveScore a = some (7/10) → a ∈ r.high.map (fun x => x.base)) ∧
    (∀ a ∈ l, effectiveScore a = some (2/5) → a ∈ r.medium.map (fun x => x.base))

/-- Concrete scored articles at the two boundary scores, for the C2
witness. -/
def lw2 : List OutArticle :=
  [OutArticle.mk (ArticleRow.mk 1 "u1" "A" none none none "S" none "f" (some (7/10)) false "c") none,
   OutArticle.mk (ArticleRow.mk 2 "u2" "B" none none none "S" none "f" (some (2/5)) false "c") none]

/-- Concrete deep-analyzed article dict with stored score 0.2 that
still carries its `deep_analysis` field — the input shape the tiering
loop's floor branch was written for. -/
def aDeep : OutArticle :=
  OutArticle.mk (ArticleRow.mk 3 "u3" "C" none none (some "analys") "S" none "f"
    (some (1/5)) false "c") none

/-! ## Query & Filter Engine (`ArticleManager.query_articles_advanced`)

SQL semantics are modelled relationally: the optional `LEFT JOIN
feedback` yields one row per (article, feedback) pair — or a single
`(article, NULL)` row for an article without feedback — `WHERE` is a
conjunction of the conditions the source appends, `GROUP BY a.id`
de-duplicates by article id, `ORDER BY` is realised by an insertion
sort for the mapped comparator, and `LIMIT`/`OFFSET` drop/take.  A SQL
`NULL` comparison evaluates to false, as in SQLite.  The free
functions of `date(...)`/`datetime.now()` are supplied by an
environment, since they depend on the wall clock. -/
/-- SQLite TEXT comparison (memcmp over UTF-8 agrees with codepoint
lexicographic order). -/
def lexLe : List Char → List Char → Bool
  | [], _ => true
  | _ :: _, [] => false
  | c :: cs, d :: ds => if c = d then lexLe cs ds else decide (c < d)

/-- String `<=` as used by the temporal filters. -/
def strLe (a b : String) : Bool := lexLe a.data b.data

/-- Wall-clock-dependent SQL/Python functions, supplied externally. -/
structure SqlEnv where
  dateOf : Option String → Option String
  nowMinusDays : Nat → String
  nowMinusHours : Nat → String

/-- Python truthiness of an optional string (`if s:`). -/
def truthyStr : Option String → Bool
  | some s => s ≠ ""
  | none => false

/-- Python truthiness of an optional list (`if l:`). -/
def truthyList : Option (List String) → Bool
  | some l => l ≠ []
  | none => false

/-- Python truthiness of an optional integer (`if n:`). -/
def truthyNat : Option Nat → Bool
  | some n => n ≠ 0
  | none => false

/-- The keyword surface of `query_articles_advanced`, with the
source's defaults. -/
structure QueryConfig where
  read_status : String := "all"
  limit : Option Nat := none
  offset : Nat := 0
  source : Option String := none
  sources : Option (List String) := none
  exclude_sources : Option (List String) := none
  min_relevance : Option ℚ := none
  max_relevance : Option ℚ := none
  has_summary : Option Bool := none
  published_after : Option String := none
  published_before : Option String := none
  fetched_after : Option String := none
  fetched_before : Option String := none
  last_n_days : Option Nat := none
  search_query : Option String := none
  search_in : String := "all"
  exclude_query : Option String := none
  with_feedback : Option Bool := none
  min_rating : Option ℚ := none
  controversial : Option Bool := none
  sort_by : String := "relevance_desc"
  group_by : Option String := none
  include_content : Bool := false
  include_feedback : Bool := false
  stats_only : Bool := false

/-- The feedback rows of one article. -/
def feedbackFor (db : NewsDB) (aid : Nat) : List FeedbackRow :=
  db.feedback.filter (fun f => f.article_id == aid)

/-- Whether the source adds `LEFT JOIN feedback f ON a.id =
f.article_id`. -/
def needJoin (cfg : QueryConfig) : Bool :=
  cfg.with_feedback.isSome || cfg.min_rating.isSome || cfg.controversial.isSome ||
    cfg.include_feedback

/-- The rows one article contributes to the `LEFT JOIN`: its matching
feedback rows, or a single `(a, NULL)` row when it has none. -/
def joinBlock (db : NewsDB) (a : ArticleRow) : List (ArticleRow × Option FeedbackRow) :=
  let fs := feedbackFor db a.id
  if fs.isEmpty then [(a, none)] else fs.map (fun f => (a, some f))

/-- The row stream the `FROM`/`LEFT JOIN` clause produces. -/
def joinRows (cfg : QueryConfig) (db : NewsDB) : List (ArticleRow × Option FeedbackRow) :=
  if needJoin cfg then listJoin (db.articles.map (joinBlock db))
  else db.articles.map (fun a => (a, none))

/-- The controversial-article subquery: at least 3 feedback rows and a
rating spread of at least 3. -/
def isControversial (db : NewsDB) (aid : Nat) : Bool :=
  let ratings := (feedbackFor db aid).map (fun f => f.rating)
  decide (ratings.length ≥ 3) &&
    (match ratings with
     | [] => false
     | r :: rs => decide ((r :: rs).foldl max r - (r :: rs).foldl min r ≥ 3))

/-- A single `WHERE` condition over a joined row. -/
def QCond : Type := (ArticleRow × Option FeedbackRow) → Bool

/-- The per-field text-search conditions selected by `search_in`
(`a.title LIKE ?` and friends; a NULL field compares to NULL, i.e.
false). -/
def searchFieldConds (cfg : QueryConfig) (q : String) : List QCond :=
  let ct : List QCond :=
    if cfg.search_in = "all" ∨ cfg.search_in = "title" then
      [fun r => likeMatch q r.1.title]
    else []
  let cc : List QCond :=
    if cfg.search_in = "all" ∨ cfg.search_in = "content" then
      [fun r => match r.1.content with
        | some c => likeMatch q c
        | none => false]
    else []
  let cs : List QCond :=
    if cfg.search_in = "all" ∨ cfg.search_in = "summary" then
      [fun r => match r.1.summary with
        | some s => likeMatch q s
        | none => false]
    else []
  ct ++ cc ++ cs

/-- The `WHERE` conditions, in the order the source appends them.
Python truthiness gates the string/list-valued filters, `is not None`
gates the rest. -/
def conds (cfg : QueryConfig) (env : SqlEnv) (db : NewsDB) : List QCond :=
  let cRead : List QCond :=
    if cfg.read_status = "unread" then [fun r => r.1.is_read == false]
    else if cfg.read_status = "read" then [fun r => r.1.is_read == true]
    else []
  let cSource : List QCond :=
    if truthyStr cfg.source then
      [fun r => likeMatch (cfg.source.getD "") r.1.source_name]
    else if truthyList cfg.sources then
      [fun r => (cfg.sources.getD []).contains r.1.source_name]
    else []
  let cExclSources : List QCond :=
    if truthyList cfg.exclude_sources then
      [fun r => !(cfg.exclude_sources.getD []).contains r.1.source_name]
    else []
  let cMinRel : List QCond :=
    match cfg.min_relevance with
    | some m => [fun r => match r.1.relevance_score with
        | some s => decide (m ≤ s)
        | none => false]
    | none => []
  let cMaxRel : List QCond :=
    match cfg.max_relevance with
    | some m => [fun r => match r.1.relevance_score with
        | some s => decide (s ≤ m)
        | none => false]
    | none => []
  let cSummary : List QCond :=
    match cfg.has_summary with
    | some b => [fun r => if b then r.1.summary.isSome else r.1.summary.isNone]
    | none => []
  let cLastN : List QCond :=
    match cfg.last_n_days with
    | some n => [fun r => match env.dateOf r.1.published_date with
        | some d => strLe (env.nowMinusDays n) d
        | none => false]
    | none => []
  let cPubAfter : List QCond :=
    if truthyStr cfg.published_after then
      [fun r => match r.1.published_date with
        | some d => strLe (cfg.published_after.getD "") d
        | none => false]
    else []
  let cPubBefore : List QCond :=
    if truthyStr cfg.published_before then
      [fun r => match r.1.published_date with
        | some d => strLe d (cfg.published_before.getD "")
        | none => false]
    else []
  let cFetAfter : List QCond :=
    if truthyStr cfg.fetched_after then
      [fun r => strLe (cfg.fetched_after.getD "") r.1.fetched_date]
    else []
  let cFetBefore : List QCond :=
    if truthyStr cfg.fetched_before then
      [fun r => strLe r.1.fetched_date (cfg.fetched_before.getD "")]
    else []
  let cSearch : List QCond :=
    if truthyStr cfg.search_query then
      (let scs := searchFieldConds cfg (cfg.search_query.getD "")
       if scs.isEmpty then [] else [fun r => scs.any (fun c => c r)])
    else []
  let cExclText : List QCond :=
    if truthyStr cfg.exclude_query then
      [fun r => !likeMatch (cfg.exclude_query.getD "") r.1.title &&
        (match r.1.content with
          | some c => !likeMatch (cfg.exclude_query.getD "") c
          | none => true)]
    else []
  let cWithFb : List QCond :=
    match cfg.with_feedback with
    | some b => [fun r => if b then r.2.isSome else r.2.isNone]
    | none => []
  let cMinRating : List QCond :=
    match cfg.min_rating with
    | some m => [fun r => match r.2 with
        | some f => decide (m ≤ (f.rating : ℚ))
        | none => false]
    | none => []
  let cControv : List QCond :=
    match cfg.controversial with
    | some b => if b then [fun r => isControversial db r.1.id] else []
    | none => []
  cRead ++ cSource ++ cExclSources ++ cMinRel ++ cMaxRel ++ cSummary ++ cLastN ++
    cPubAfter ++ cPubBefore ++ cFetAfter ++ cFetBefore ++ cSearch ++ cExclText ++
    cWithFb ++ cMinRating ++ cControv

/-- The conjunctive `WHERE` clause. -/
def wherePass (cfg : QueryConfig) (env : SqlEnv) (db : NewsDB)
    (r : ArticleRow × Option FeedbackRow) : Bool :=
  (conds cfg env db).all (fun c => c r)

/-- The filtered row stream. -/
def filteredRows (cfg : QueryConfig) (env : SqlEnv) (db : NewsDB) :
    List (ArticleRow × Option FeedbackRow) :=
  (joinRows cfg db).filter (wherePass cfg env db)

/-- `GROUP BY a.id`: one row per article id, first row of each group
(all selected columns come from `a`, so group members agree). -/
def dedupeById (seen : List Nat) :
    List (ArticleRow × Option FeedbackRow) → List (ArticleRow × Option FeedbackRow)
  | [] => []
  | r :: rs =>
    if seen.contains r.1.id then dedupeById seen rs
    else r :: dedupeById (r.1.id :: seen) rs

/-- Rows after the conditional `GROUP BY a.id` (added for
include-feedback mode or explicit article grouping). -/
def groupedRows (cfg : QueryConfig) (env : SqlEnv) (db : NewsDB) :
    List (ArticleRow × Option FeedbackRow) :=
  if cfg.include_feedback || cfg.group_by == some "article" then
    dedupeById [] (filteredRows cfg env db)
  else filteredRows cfg env db

/-- Descending order on an optional text column with NULLs last. -/
def optStrDescNullsLast (x y : Option String) : Bool :=
  match x, y with
  | some a, some b => strLe b a
  | some _, none => true
  | none, some _ => false
  | none, none => true

/-- Ascending order on an optional text column with NULLs last. -/
def optStrAscNullsLast (x y : Option String) : Bool :=
  match x, y with
  | some a, some b => strLe a b
  | some _, none => true
  | none, some _ => false
  | none, none => true

/-- Descending order on an optional numeric column with NULLs last. -/
def optRatDescNullsLast (x y : Option ℚ) : Bool :=
  match x, y with
  | some a, some b => decide (b ≤ a)
  | some _, none => true
  | none, some _ => false
  | none, none => true

/-- Ascending order on an optional numeric column with NULLs last. -/
def optRatAscNullsLast (x y : Option ℚ) : Bool :=
  match x, y with
  | some a, some b => decide (a ≤ b)
  | some _, none => true
  | none, some _ => false
  | none, none => true

/-- The eight named sort orders of `sort_mapping`, with
`published_date DESC` as the fallback for an unknown key (SQLite DESC
places NULLs last). -/
def rowLe (sort_by : String) (x y : ArticleRow × Option FeedbackRow) : Bool :=
  if sort_by = "relevance_desc" then
    optRatDescNullsLast x.1.relevance_score y.1.relevance_score
  else if sort_by = "relevance_asc" then
    optRatAscNullsLast x.1.relevance_score y.1.relevance_score
  else if sort_by = "published_desc" then
    optStrDescNullsLast x.1.published_date y.1.published_date
  else if sort_by = "published_asc" then
    optStrAscNullsLast x.1.published_date y.1.published_date
  else if sort_by = "fetched_desc" then strLe y.1.fetched_date x.1.fetched_date
  else if sort_by = "fetched_asc" then strLe x.1.fetched_date y.1.fetched_date
  else if sort_by = "title" then strLe x.1.title y.1.title
  else if sort_by = "source" then
    (if x.1.source_name = y.1.source_name then
      optStrDescNullsLast x.1.published_date y.1.published_date
    else strLe x.1.source_name y.1.source_name)
  else optStrDescNullsLast x.1.published_date y.1.published_date

/-- Rows after `ORDER BY`. -/
def sortedRows (cfg : QueryConfig) (env : SqlEnv) (db : NewsDB) :
    List (ArticleRow × Option FeedbackRow) :=
  sortLe (rowLe cfg.sort_by) (groupedRows cfg env db)

/-- `LIMIT`/`OFFSET`.  The source appends `LIMIT ?` only for a truthy
limit and `OFFSET ?` only for a positive offset; `OFFSET` without
`LIMIT` is an SQLite syntax error, raised as `OperationalError`. -/
def pagedRows (cfg : QueryConfig) (rows : List (ArticleRow × Option FeedbackRow)) :
    Except String (List (ArticleRow × Option FeedbackRow)) :=
  if truthyNat cfg.limit then
    Except.ok (if cfg.offset > 0 then (rows.drop cfg.offset).take (cfg.limit.getD 0)
      else rows.take (cfg.limit.getD 0))
  else if cfg.offset > 0 then Except.error "OperationalError"
  else Except.ok rows

/-- The `SELECT` column list: without `include_content` the source
selects every column except `content` and `deep_analysis`, so those
keys are absent from the returned dicts. -/
def stripRow (cfg : QueryConfig) (a : ArticleRow) : ArticleRow :=
  if cfg.include_content then a else { a with content := none, deep_analysis := none }

/-- The feedback dicts attached in include-feedback mode, most recent
first. -/
def attachFeedback (db : NewsDB) (aid : Nat) : List FbOut :=
  (sortLe (fun f g => strLe g.created_at f.created_at) (feedbackFor db aid)).map
    (fun f => FbOut.mk f.rating f.note f.created_at)

/-- One output dict per surviving row. -/
def mkOut (cfg : QueryConfig) (db : NewsDB) (r : ArticleRow × Option FeedbackRow) :
    OutArticle :=
  OutArticle.mk (stripRow cfg r.1)
    (if cfg.include_feedback then some (attachFeedback db r.1.id) else none)

/-- First-seen distinct source names, in output order. -/
def distinctSources (seen : List String) : List OutArticle → List String
  | [] => []
  | o :: os =>
    if seen.contains o.base.source_name then distinctSources seen os
    else o.base.source_name :: distinctSources (o.base.source_name :: seen) os

/-- The `group_by == "source"` dict: source → its articles, in
first-seen order. -/
def groupBySource (outs : List OutArticle) : List (String × List OutArticle) :=
  (distinctSources [] outs).map
    (fun s => (s, outs.filter (fun o => o.base.source_name == s)))

/-- The three response shapes of `query_articles_advanced`. -/
inductive QueryResult where
  | statsOnly (total_count : Nat)
  | plain (articles : List OutArticle) (total : Nat)
  | groupedBySource (articles : List OutArticle)
      (grouped : List (String × List OutArticle)) (total : Nat)
  deriving DecidableEq

/-- The value `query_articles_advanced` computes (every statement it
executes is a `SELECT`). -/
def queryCompute (cfg : QueryConfig) (env : SqlEnv) (db : NewsDB) :
    Except String QueryResult :=
  if cfg.stats_only then
    Except.ok (QueryResult.statsOnly (filteredRows cfg env db).length)
  else
    match pagedRows cfg (sortedRows cfg env db) with
    | Except.error e => Except.error e
    | Except.ok rows =>
      let articles := rows.map (mkOut cfg db)
      if cfg.group_by == some "source" then
        Except.ok (QueryResult.groupedBySource articles (groupBySource articles)
          articles.length)
      else Except.ok (QueryResult.plain articles articles.length)

/-- `ArticleManager.query_articles_advanced` as a state transformer:
it returns the store it was given, because its body only ever executes
`SELECT` statements. -/
def query_articles_advanced (cfg : QueryConfig) (env : SqlEnv) (db : NewsDB) :
    NewsDB × Except String QueryResult :=
  (db, queryCompute cfg env db)

/-- `ArticleManager.mark_as_read`, the one operation that does flip the
read flag (`UPDATE articles SET is_read = 1 WHERE id = ?`) — callers
must invoke it explicitly. -/
def mark_as_read (aid : Nat) (db : NewsDB) : NewsDB :=
  { db with articles := db.articles.map (fun a =>
      if a.id == aid then { a with is_read := true } else a) }

/-! ## `get_articles_tool` -/
/-- The articles list a caller reads off a query result
(`result.get('articles', [])`; the stats shape has no such key). -/
def resultArticles : QueryResult → List OutArticle
  | QueryResult.statsOnly _ => []
  | QueryResult.plain as _ => as
  | QueryResult.groupedBySource as _ _ => as

/-- The argument surface of `get_articles_tool`, with its defaults. -/
structure GetArticlesArgs where
  read_status : String := "all"
  source : Option String := none
  min_relevance : Option ℚ := none
  time_filter : Option String := none
  fetched_since : Option String := none
  published_since : Option String := none
  limit : Option Nat := none
  offset : Nat := 0
  sort_by : String := "relevance_desc"
  grouped : Bool := false

/-- `hours_map` with its default of 24 hours. -/
def hoursMap (tf : String) : Nat :=
  if tf = "last_24h" then 24
  else if tf = "last_week" then 168
  else if tf = "last_month" then 720
  else 24

/-- The response shapes of `get_articles_tool`: the `except` branch
(`success: False` with the error text) or a success shape. -/
inductive ToolResult where
  | failure (error : String)
  | flatOk (articles : List OutArticle) (total : Nat)
  | groupedOk (articles : List OutArticle) (tiers : TierLists)
      (tier_counts : Nat × Nat × Nat) (total : Nat)
  deriving DecidableEq

/-- The `success` flag of a tool response. -/
def ToolResult.success : ToolResult → Bool
  | ToolResult.failure _ => false
  | _ => true

/-- `get_articles_tool`: maps its arguments onto the advanced query,
then optionally runs the grouped tiering pass; any exception inside the
`try` block — including the `TypeError` the tiering loop raises on an
unanalyzed article — is caught and returned as a failure response. -/
def get_articles_tool (args : GetArticlesArgs) (env : SqlEnv) (db : NewsDB) :
    ToolResult :=
  let fetched_since : Option String :=
    match args.time_filter with
    | some tf => if tf ≠ "" then some (env.nowMinusHours (hoursMap tf))
        else args.fetched_since
    | none => args.fetched_since
  let cfg : QueryConfig :=
    { read_status := args.read_status, source := args.source,
      min_relevance := args.min_relevance, fetched_after := fetched_since,
      published_after := args.published_since, limit := args.limit,
      offset := args.offset, sort_by := args.sort_by }
  match (query_articles_advanced cfg env db).2 with
  | Except.error e => ToolResult.failure e
  | Except.ok res =>
    let articles := resultArticles res
    if args.grouped then
      match tierPass articles with
      | Except.error _ => ToolResult.failure "TypeError"
      | Except.ok r =>
        ToolResult.groupedOk articles r (r.high.length, r.medium.length, r.low.length)
          articles.length
    else ToolResult.flatOk articles articles.length

/-- A fixed environment for concrete evaluations (its functions are
irrelevant to the configurations the witnesses use). -/
def envW : SqlEnv := SqlEnv.mk (fun _ => none) (fun _ => "") (fun _ => "")

/-- An unanalyzed article: fetched but never scored, so
`relevance_score` is NULL. -/
def a9 : ArticleRow :=
  ArticleRow.mk 1 "u9" "Unanalyzed" (some "text") none none "S" none "f" none false "c"

/-- A corpus holding one unanalyzed article. -/
def db9 : NewsDB := NewsDB.mk [a9] [] []

/-! ## Feedback & Accuracy Scorer (`FeedbackManager.get_learning_stats`) -/
/-- The `feedback f JOIN articles a ON f.article_id = a.id` row
stream. -/
def fbArticlePairs (db : NewsDB) : List (FeedbackRow × ArticleRow) :=
  listJoin (db.feedback.map (fun f =>
    (db.articles.filter (fun a => a.id == f.article_id)).map (fun a => (f, a))))

/-- `SELECT COUNT(*) ... WHERE a.relevance_score IS NOT NULL`. -/
def total_with_scores (db : NewsDB) : Nat :=
  (fbArticlePairs db).countP (fun p => p.2.relevance_score.isSome)

/-- `SELECT COUNT(*) ... WHERE a.relevance_score IS NOT NULL AND
ABS(a.relevance_score - (f.rating / 5.0)) > 0.3`. -/
def discrepancies (db : NewsDB) : Nat :=
  (fbArticlePairs db).countP (fun p =>
    match p.2.relevance_score with
    | some s => decide (|s - (p.1.rating : ℚ)/5| > 3/10)
    | none => false)

/-- `accuracy_rate = 1.0 if total_with_scores == 0 else
1 - (discrepancies / total_with_scores)`. -/
def accuracy_rate (db : NewsDB) : ℚ :=
  if total_with_scores db = 0 then 1
  else 1 - (discrepancies db : ℚ) / (total_with_scores db : ℚ)

/-- Concrete corpus for the C6 instance: two scored articles (0.8 and
0.2), each with one rating of 5. -/
def db6 : NewsDB :=
  NewsDB.mk
    [ArticleRow.mk 1 "u61" "A" none none none "S" none "f" (some (4/5)) false "c",
     ArticleRow.mk 2 "u62" "B" none none none "S" none "f" (some (1/5)) false "c"]
    [FeedbackRow.mk 1 1 5 none "t1", FeedbackRow.mk 2 2 5 none "t2"]
    []

/-! ## Claim C10: multiplicity of the un-deduplicated feedback join -/
/-- The number of feedback rows of an article that satisfy the
minimum-rating filter. -/
def ratedCount (db : NewsDB) (aid : Nat) (r : ℚ) : Nat :=
  ((feedbackFor db aid).filter (fun f => decide (r ≤ (f.rating : ℚ)))).length

/-- The number of feedback rows of an article. -/
def fbCount (db : NewsDB) (aid : Nat) : Nat := (feedbackFor db aid).length

/-- The store invariant that `id` is the articles table's primary
key. -/
def IdsNodup (db : NewsDB) : Prop := (db.articles.map (fun x => x.id)).Nodup

instance (db : NewsDB) : Decidable (IdsNodup db) := List.nodupDecidable _

/-- The configuration "minimum feedback rating only". -/
def cfgMR (r : ℚ) : QueryConfig := { min_rating := some r }

/-- "Minimum feedback rating" together with group-by-article. -/
def cfgMRG (r : ℚ) : QueryConfig := { min_rating := some r, group_by := some "article" }

/-- "Minimum feedback rating" together with include-feedback. -/
def cfgMRF (r : ℚ) : QueryConfig := { min_rating := some r, include_feedback := true }

/-- The configuration "has any feedback". -/
def cfgWF : QueryConfig := { with_feedback := some true }

/-- What claim C10 asserts for one article `a`: under a bare feedback
filter the flat list holds one copy of the article per qualifying
feedback row (and the reported total is the flat list's length), while
group-by-article or include-feedback collapse it to a single copy. -/
def JoinDupSpec (db : NewsDB) (env : SqlEnv) (a : ArticleRow) (r : ℚ) : Prop :=
  (∃ arts, queryCompute (cfgMR r) env db =
      Except.ok (QueryResult.plain arts arts.length) ∧
    arts.countP (fun o => o.base.id == a.id) = ratedCount db a.id r) ∧
  (∃ arts, queryCompute cfgWF env db =
      Except.ok (QueryResult.plain arts arts.length) ∧
    arts.countP (fun o => o.base.id == a.id) = fbCount db a.id) ∧
  (∃ arts, queryCompute (cfgMRG r) env db =
      Except.ok (QueryResult.plain arts arts.length) ∧
    arts.countP (fun o => o.base.id == a.id) =
      if ratedCount db a.id r = 0 then 0 else 1) ∧
  (∃ arts, queryCompute (cfgMRF r) env db =
      Except.ok (QueryResult.plain arts arts.length) ∧
    arts.countP (fun o => o.base.id == a.id) =
      if ratedCount db a.id r = 0 then 0 else 1)

/-- Concrete article and store for the C10 witness: one article with
three feedback rows rated 5, 4 and 2. -/
def aw10 : ArticleRow :=
  ArticleRow.mk 1 "uw1" "T1" none none none "S" none "f" none false "c"

/-- The C10 witness store. -/
def db10 : NewsDB :=
  NewsDB.mk
    [aw10, ArticleRow.mk 2 "uw2" "T2" none none none "S" none "f" none false "c"]
    [FeedbackRow.mk 1 1 5 none "t1", FeedbackRow.mk 2 1 4 none "t2",
     FeedbackRow.mk 3 1 2 none "t3"]
    []

/-- What the amended claim C7 asserts of a returned article: it comes
from a stored article in whose scope-selected fields the search string
occurs, under ASCII-case-insensitive substring matching. -/
def SearchOnlyIf (cfg : QueryConfig) (db : NewsDB) (q : String) (out : OutArticle) :
    Prop :=
  ∃ a ∈ db.articles, out.base = stripRow cfg a ∧
    (((cfg.search_in = "all" ∨ cfg.search_in = "title") ∧ OccursInCI q a.title) ∨
     ((cfg.search_in = "all" ∨ cfg.search_in = "content") ∧
       ∃ c, a.content = some c ∧ OccursInCI q c) ∨
     ((cfg.search_in = "all" ∨ cfg.search_in = "summary") ∧
       ∃ s, a.summary = some s ∧ OccursInCI q s))

/-- The C7 configuration: search `"ai"` in titles only. -/
def cfg7 : QueryConfig := { search_query := some "ai", search_in := "title" }

/-- The C7 article: its title is `"AI"`, upper case. -/
def a7 : ArticleRow :=
  ArticleRow.mk 1 "u7" "AI" none none none "S" none "f" none false "c"

/-- The C7 store. -/
def db7 : NewsDB := NewsDB.mk [a7] [] []

/-- A stored article row that carries a non-empty deep-analysis text
and relevance score 0.2. -/
def a3row : ArticleRow :=
  ArticleRow.mk 1 "u3r" "Deep" (some "text") none (some "analys") "S" none "f"
    (some (1/5)) false "c"

/-- A corpus holding only that deep-analyzed article. -/
def db3 : NewsDB := NewsDB.mk [a3row] [] []

/-- The dict the tiering loop actually receives for `a3row`: the tool
queries with `include_content = False`, whose SELECT omits the
`content` and `deep_analysis` columns. -/
def out3 : OutArticle :=
  OutArticle.mk { a3row with content := none, deep_analysis := none } none

/-! ## Theorems -/

/-! ### Characterisation lemmas for the matching primitives -/
theorem prefixBy_eq_iff (q s : List Char) :
    prefixBy (fun a b => a == b) q s = true ↔ ∃ post, s = q ++ post := by
  induction q generalizing s with
  | nil => simp [prefixBy]
  | cons c q ih =>
    cases s with
    | nil => simp [prefixBy]
    | cons t s =>
      simp only [prefixBy, Bool.and_eq_true, beq_iff_eq, ih, List.cons_append,
        List.cons.injEq]
      constructor
      · rintro ⟨rfl, post, rfl⟩; exact ⟨post, rfl, rfl⟩
      · rintro ⟨post, rfl, rfl⟩; exact ⟨rfl, post, rfl⟩

theorem occursBy_eq_iff (q s : List Char) :
    occursBy (fun a b => a == b) q s = true ↔ ∃ pre post, s = pre ++ q ++ post := by
  induction s with
  | nil =>
    simp only [occursBy, prefixBy_eq_iff]
    constructor
    · rintro ⟨post, h⟩; exact ⟨[], post, by simpa using h⟩
    · rintro ⟨pre, post, h⟩
      obtain ⟨h1, hpost⟩ := List.append_eq_nil.mp h.symm
      obtain ⟨hpre, hq⟩ := List.append_eq_nil.mp h1
      exact ⟨post, by simp [hq, hpost]⟩
  | cons c s ih =>
    simp only [occursBy, Bool.or_eq_true, prefixBy_eq_iff, ih]
    constructor
    · rintro (⟨post, h⟩ | ⟨pre, post, rfl⟩)
      · exact ⟨[], post, by simpa using h⟩
      · exact ⟨c :: pre, post, rfl⟩
    · rintro ⟨pre, post, h⟩
      cases pre with
      | nil => exact Or.inl ⟨post, by simpa using h⟩
      | cons x pre =>
        right
        have h2 : c = x ∧ s = pre ++ q ++ post := by simpa using h
        exact ⟨pre, post, h2.2⟩

theorem prefixBy_ci_eq (q s : List Char) :
    prefixBy ciEq q s =
      prefixBy (fun a b => a == b) (q.map Char.toLower) (s.map Char.toLower) := by
  induction q generalizing s with
  | nil => simp [prefixBy]
  | cons c q ih =>
    cases s with
    | nil => simp [prefixBy]
    | cons t s => simp [prefixBy, ciEq, ih]

theorem occursBy_ci_eq (q s : List Char) :
    occursBy ciEq q s =
      occursBy (fun a b => a == b) (q.map Char.toLower) (s.map Char.toLower) := by
  induction s with
  | nil => simp [occursBy, prefixBy_ci_eq]
  | cons c s ih => simp [occursBy, prefixBy_ci_eq, ih]

theorem containsCI_iff (q s : String) : containsCI q s = true ↔ OccursInCI q s := by
  unfold containsCI OccursInCI lowerStr
  rw [occursBy_ci_eq, occursBy_eq_iff]

theorem containsCS_iff (q s : String) : containsCS q s = true ↔ OccursIn q s := by
  unfold containsCS OccursIn
  rw [occursBy_eq_iff]

/-- The all-suffix search of a star for the empty pattern always
succeeds. -/
theorem likeStarAux_nilpat (s : List Char) : likeStarAux (likeM []) s = true := by
  induction s with
  | nil => rfl
  | cons t s ih => simp [likeStarAux, ih]

theorem likeStarAux_congr (f g : List Char → Bool) (hfg : ∀ x, f x = g x)
    (s : List Char) : likeStarAux f s = likeStarAux g s := by
  induction s with
  | nil => simp [likeStarAux, hfg]
  | cons t s ih => simp [likeStarAux, hfg, ih]

/-- A pattern `q ++ ['%']` with `q` wildcard-free matches exactly the
texts that start with `q` (case-insensitively). -/
theorem likeM_trailing (q : List Char)
    (hq : q.all (fun c => c != '%' && c != '_') = true) (s : List Char) :
    likeM (q ++ ['%']) s = prefixBy ciEq q s := by
  induction q generalizing s with
  | nil =>
    simp only [List.nil_append, prefixBy]
    show likeM ['%'] s = true
    show (if '%' = '%' then likeStarAux (likeM []) s else _) = true
    rw [if_pos rfl]
    exact likeStarAux_nilpat s
  | cons c q ih =>
    simp only [List.all_cons, Bool.and_eq_true, bne_iff_ne, ne_eq] at hq
    obtain ⟨⟨hc1, hc2⟩, hq⟩ := hq
    cases s with
    | nil => simp [likeM, prefixBy, hc1]
    | cons t s =>
      simp [likeM, prefixBy, hc1, hc2, ih (by simpa using hq)]

/-- The suffix search with a wildcard-free prefix matcher is exactly
substring occurrence. -/
theorem likeStarAux_prefixBy (q s : List Char) :
    likeStarAux (prefixBy ciEq q) s = occursBy ciEq q s := by
  induction s with
  | nil => rfl
  | cons t s ih => simp [likeStarAux, occursBy, ih]

/-- The `'%' ++ q ++ '%'` pattern built by the query engine tests
case-insensitive substring occurrence, for wildcard-free `q`. -/
theorem likeM_enclosed (q s : List Char)
    (hq : q.all (fun c => c != '%' && c != '_') = true) :
    likeM ('%' :: (q ++ ['%'])) s = occursBy ciEq q s := by
  show (if '%' = '%' then likeStarAux (likeM (q ++ ['%'])) s else _) = _
  rw [if_pos rfl]
  rw [likeStarAux_congr _ _ (likeM_trailing q hq) s]
  exact likeStarAux_prefixBy q s

theorem likeMatch_iff (q s : String) (hq : noWild q = true) :
    likeMatch q s = true ↔ OccursInCI q s := by
  rw [likeMatch, likeM_enclosed _ _ hq, ← containsCI_iff]
  rfl

theorem mem_listJoin {α : Type} {x : α} {ls : List (List α)} :
    x ∈ listJoin ls ↔ ∃ l ∈ ls, x ∈ l := by
  induction ls with
  | nil => simp [listJoin]
  | cons l ls ih => simp [listJoin, ih]

theorem countP_listJoin {α : Type} (p : α → Bool) (ls : List (List α)) :
    (listJoin ls).countP p = ((ls.map (fun l => l.countP p)).sum) := by
  induction ls with
  | nil => simp [listJoin]
  | cons l ls ih => simp [listJoin, List.countP_append, ih]

theorem insertLe_perm {α : Type} (le : α → α → Bool) (x : α) (l : List α) :
    List.Perm (insertLe le x l) (x :: l) := by
  induction l with
  | nil => simp [insertLe]
  | cons y ys ih =>
    by_cases h : le x y = true
    · simp [insertLe, h]
    · simp only [insertLe, h, if_false]
      exact (ih.cons y).trans (List.Perm.swap x y ys)

theorem sortLe_perm {α : Type} (le : α → α → Bool) (l : List α) :
    List.Perm (sortLe le l) l := by
  induction l with
  | nil => simp [sortLe]
  | cons x xs ih => exact (insertLe_perm le x (sortLe le xs)).trans (ih.cons x)

/-! ### Profile lemmas -/
theorem clamp01_idem (w : ℚ) : clamp01 (clamp01 w) = clamp01 w := by
  unfold clamp01
  rcases le_total w 0 with h | h
  · rw [min_eq_right (h.trans zero_le_one), max_eq_left h]
    simp
  · rcases le_total 1 w with h1 | h1
    · rw [min_eq_left h1]; simp
    · rw [min_eq_right h1, max_eq_right h]
      rw [min_eq_right h1, max_eq_right h]

theorem findAppend {α : Type} (p : α → Bool) (l₁ l₂ : List α) :
    (l₁ ++ l₂).find? p = ((l₁.find? p).orElse (fun _ => l₂.find? p)) := by
  induction l₁ with
  | nil => simp
  | cons x l₁ ih =>
    by_cases h : p x
    · simp [List.find?, h]
    · simp only [List.cons_append, List.find?, h]
      exact ih

theorem find_updRows_self (t : String) (w : ℚ) (now : String) (l : List ProfileRow)
    (h : (l.find? (fun r => r.topic == t)).isSome = true) :
    ((l.map (fun r =>
        if r.topic == t then
          { r with weight := w, sample_count := r.sample_count + 1, last_updated := now }
        else r)).find? (fun r => r.topic == t)).map (fun r => r.weight) = some w := by
  induction l with
  | nil => simp [List.find?] at h
  | cons r rs ih =>
    by_cases hr : (r.topic == t) = true
    · simp [List.find?, hr]
    · have hrf : (r.topic == t) = false := by simpa using hr
      simp only [List.find?, hrf] at h
      simpa [List.find?, hrf] using ih h

theorem find_updRows_other (t : String) (w : ℚ) (now : String) (l : List ProfileRow)
    (t' : String) (hne : t' ≠ t) :
    (l.map (fun r =>
        if r.topic == t then
          { r with weight := w, sample_count := r.sample_count + 1, last_updated := now }
        else r)).find? (fun r => r.topic == t') =
      l.find? (fun r => r.topic == t') := by
  induction l with
  | nil => simp
  | cons r rs ih =>
    by_cases hr : (r.topic == t) = true
    · have hr' : r.topic = t := by simpa using hr
      have h2f : (r.topic == t') = false := by
        simp only [beq_eq_false_iff_ne, ne_eq, hr']
        exact fun h => hne h.symm
      rw [List.map_cons, if_pos hr]
      simp only [List.find?_cons, h2f]
      exact ih
    · rw [List.map_cons, if_neg hr]
      simp only [List.find?_cons]
      cases hr2 : (r.topic == t') <;> simp only [hr2, ih]

/-- After an upsert, looking up the written topic yields the clamped
weight. -/
theorem lookup_update_self (t : String) (w : ℚ) (s now : String) (db : NewsDB) :
    (lookupProfile (update_topic t w s now db) t).map (fun r => r.weight) =
      some (clamp01 w) := by
  unfold update_topic
  cases h : lookupProfile db t with
  | some row =>
    simp only [h]
    have h' : (db.reader_profile.find? (fun r => r.topic == t)).isSome = true := by
      unfold lookupProfile at h; simp [h]
    exact find_updRows_self t (clamp01 w) now db.reader_profile h'
  | none =>
    simp only [h]
    show ((db.reader_profile ++ [ProfileRow.mk t (clamp01 w) s 1 now]).find?
      (fun r => r.topic == t)).map (fun r => r.weight) = some (clamp01 w)
    unfold lookupProfile at h
    rw [findAppend, h]
    simp [List.find?]

/-- An upsert of topic `t` does not touch the row of any other
topic. -/
theorem lookup_update_other (t : String) (w : ℚ) (s now : String) (db : NewsDB)
    (t' : String) (hne : t' ≠ t) :
    lookupProfile (update_topic t w s now db) t' = lookupProfile db t' := by
  unfold update_topic
  cases h : lookupProfile db t with
  | some row =>
    simp only [h]
    exact find_updRows_other t (clamp01 w) now db.reader_profile t' hne
  | none =>
    simp only [h]
    show (db.reader_profile ++ [ProfileRow.mk t (clamp01 w) s 1 now]).find?
        (fun r => r.topic == t') = lookupProfile db t'
    rw [findAppend]
    have h2 : ((ProfileRow.mk t (clamp01 w) s 1 now).topic == t') = false := by
      simp only [beq_eq_false_iff_ne, ne_eq]
      exact fun h => hne h.symm
    cases hfind : db.reader_profile.find? (fun r => r.topic == t') <;>
      simp [lookupProfile, hfind, List.find?, h2]

/-- Adjusting one topic leaves every other topic's row unchanged. -/
theorem adjust_preserves_other (t : String) (δ : ℚ) (now : String) (db : NewsDB)
    (t' : String) (hne : t' ≠ t) :
    lookupProfile (adjust_topic_weight t δ now db).1 t' = lookupProfile db t' := by
  unfold adjust_topic_weight
  cases lookupProfile db t <;> simp [lookup_update_other _ _ _ _ _ _ hne]

/-- The two branches of `adjust_topic_weight`, spelled out. -/
theorem adjust_eq_new (t : String) (δ : ℚ) (now : String) (db : NewsDB)
    (h : lookupProfile db t = none) :
    adjust_topic_weight t δ now db =
      (update_topic t (1/2 + δ) "learned" now db, 1/2 + δ) := by
  unfold adjust_topic_weight
  rw [h]

theorem adjust_eq_existing (t : String) (δ : ℚ) (now : String) (db : NewsDB)
    (row : ProfileRow) (h : lookupProfile db t = some row) :
    adjust_topic_weight t δ now db =
      (update_topic t (clamp01 (row.weight + δ)) row.source now db,
        clamp01 (row.weight + δ)) := by
  unfold adjust_topic_weight
  rw [h]

theorem clamp01_big (w : ℚ) (h : 0 ≤ w) : clamp01 (w + 10) = 1 := by
  unfold clamp01
  rw [min_eq_left (by linarith)]
  rw [max_eq_right (by norm_num)]

theorem clamp01_small (w : ℚ) (h : w ≤ 1) : clamp01 (w + -10) = 0 := by
  unfold clamp01
  rw [min_eq_right (by linarith)]
  rw [max_eq_left (by linarith)]

theorem clamp01_one : clamp01 1 = 1 := by
  unfold clamp01
  rw [min_self]
  exact max_eq_right zero_le_one

theorem clamp01_zero : clamp01 0 = 0 := by
  unfold clamp01
  rw [min_eq_right zero_le_one]
  exact max_self 0

theorem lookup_row_bounds (db : NewsDB) (t : String) (row : ProfileRow)
    (hw : WeightsInRange db) (h : lookupProfile db t = some row) :
    0 ≤ row.weight ∧ row.weight ≤ 1 :=
  hw row (List.mem_of_find?_eq_some h)

/-- Claim C1 (amended): for any profile state satisfying the weight
invariant, `adjust_topic_weight` with delta +10 stores weight exactly 1
and with delta −10 stores exactly 0; the returned value equals that
clamped weight when the topic already exists, but equals the unclamped
`0.5 + delta` (namely `10.5` resp. `−9.5`) when the topic is created by
the call. -/
theorem C1_adjust_weight_clamped (db : NewsDB) (t now : String)
    (hw : WeightsInRange db) : AdjustClampSpec db t now := by
  cases h : lookupProfile db t with
  | none =>
    refine ⟨?_, ?_, ?_, ?_⟩
    · rw [adjust_eq_new t 10 now db h, lookup_update_self]
      have : clamp01 (1/2 + 10) = 1 := clamp01_big (1/2) (by norm_num)
      rw [this]
    · rw [adjust_eq_new t (-10) now db h, lookup_update_self]
      have : clamp01 (1/2 + -10) = 0 := clamp01_small (1/2) (by norm_num)
      rw [this]
    · intro _
      rw [adjust_eq_new t 10 now db h, adjust_eq_new t (-10) now db h]
      norm_num
    · intro row hrow
      rw [h] at hrow
      cases hrow
  | some row =>
    obtain ⟨h0, h1⟩ := lookup_row_bounds db t row hw h
    have e10 : clamp01 (row.weight + 10) = 1 := clamp01_big row.weight h0
    have em10 : clamp01 (row.weight + -10) = 0 := clamp01_small row.weight h1
    refine ⟨?_, ?_, ?_, ?_⟩
    · rw [adjust_eq_existing t 10 now db row h, lookup_update_self, e10, clamp01_one]
    · rw [adjust_eq_existing t (-10) now db row h, lookup_update_self, em10, clamp01_zero]
    · intro hn
      rw [h] at hn
      cases hn
    · intro row' hrow'
      rw [h] at hrow'
      cases hrow'
      constructor
      · rw [adjust_eq_existing t 10 now db row h]
        exact e10
      · rw [adjust_eq_existing t (-10) now db row h]
        exact em10

/-- Claim C1 witness: the amended statement applied to a concrete
one-topic profile. -/
theorem C1_witness :
    WeightsInRange (NewsDB.mk [] [] [ProfileRow.mk "teknik" (1/2) "explicit" 1 "t0"]) ∧
      AdjustClampSpec (NewsDB.mk [] [] [ProfileRow.mk "teknik" (1/2) "explicit" 1 "t0"])
        "teknik" "t1" := by
  have hw : WeightsInRange (NewsDB.mk [] [] [ProfileRow.mk "teknik" (1/2) "explicit" 1 "t0"]) := by
    intro r hr
    rw [show (NewsDB.mk [] [] [ProfileRow.mk "teknik" (1/2) "explicit" 1 "t0"]).reader_profile =
      [ProfileRow.mk "teknik" (1/2) "explicit" 1 "t0"] from rfl, List.mem_singleton] at hr
    subst hr
    constructor <;> norm_num
  exact ⟨hw, C1_adjust_weight_clamped _ "teknik" "t1" hw⟩

/-- Claim C1 counterexample: from the empty profile (a topic that does
not yet exist), `adjust_topic_weight(topic, +10)` returns `10.5`, not
`1.0` — only the stored weight is clamped. -/
theorem C1_counterexample :
    (adjust_topic_weight "ai" 10 "t0" (NewsDB.mk [] [] [])).2 = 21/2 ∧
      ((21 : ℚ)/2 ≠ 1) := by
  constructor
  · rw [adjust_eq_new _ _ _ _ (by rfl)]
    norm_num
  · norm_num

theorem clamp01_of_bounds (w : ℚ) (h0 : 0 ≤ w) (h1 : w ≤ 1) : clamp01 w = w := by
  unfold clamp01
  rw [min_eq_right h1, max_eq_right h0]

theorem delta_map_bounds (rating : Int) :
    -(1/10) ≤ delta_map rating ∧ delta_map rating ≤ 1/10 := by
  unfold delta_map
  split <;> try norm_num
  split <;> try norm_num
  split <;> try norm_num
  split <;> try norm_num
  split <;> norm_num

theorem clamp01_half_delta (rating : Int) :
    clamp01 (1/2 + delta_map rating) = 1/2 + delta_map rating := by
  obtain ⟨hl, hr⟩ := delta_map_bounds rating
  exact clamp01_of_bounds _ (by linarith) (by linarith)

theorem applyDeltas_fst_map (δ : ℚ) (now : String) (ts : List String) (db : NewsDB) :
    ((applyDeltas δ now ts db).2).map Prod.fst = ts := by
  induction ts generalizing db with
  | nil => rfl
  | cons t rest ih => simp [applyDeltas, ih]

/-- During a sequential pass, a topic that exists in the profile and is
distinct from all previously adjusted topics receives exactly
`clamp01(oldWeight + δ)`. -/
theorem applyDeltas_mem (δ : ℚ) (now : String) (ts : List String) (db : NewsDB)
    (t : String) (row : ProfileRow) (hnd : ts.Nodup) (hmem : t ∈ ts)
    (hlook : lookupProfile db t = some row) :
    (t, clamp01 (row.weight + δ)) ∈ (applyDeltas δ now ts db).2 := by
  induction ts generalizing db with
  | nil => cases hmem
  | cons t₀ rest ih =>
    rcases List.mem_cons.mp hmem with rfl | hmem'
    · rw [show applyDeltas δ now (t :: rest) db =
        ((applyDeltas δ now rest (adjust_topic_weight t δ now db).1).1,
          (t, (adjust_topic_weight t δ now db).2) ::
            (applyDeltas δ now rest (adjust_topic_weight t δ now db).1).2) from rfl]
      rw [adjust_eq_existing t δ now db row hlook]
      exact List.mem_cons_self _ _
    · have hne : t ≠ t₀ := by
        rintro rfl
        exact (List.nodup_cons.mp hnd).1 hmem'
      have hlook' : lookupProfile (adjust_topic_weight t₀ δ now db).1 t = some row := by
        rw [adjust_preserves_other t₀ δ now db t hne]
        exact hlook
      have := ih (adjust_topic_weight t₀ δ now db).1 (List.nodup_cons.mp hnd).2 hmem' hlook'
      exact List.mem_cons_of_mem _ this

/-- Claim C4: when an article's text matches at least one profile
topic, `learn_from_feedback` maps the rating to a single delta through
the fixed table and applies the same delta to every matched topic; a
topic at weight 0.5 moves to 0.60/0.55/0.50/0.45/0.40 for ratings
5/4/3/2/1, and the returned list pairs every matched topic with its new
weight. -/
theorem C4_learn_delta_table (db : NewsDB) (aid : Nat) (rating : Int) (now : String)
    (a : ArticleRow) (ts : List String) (t : String) (row : ProfileRow)
    (hnd : TopicsNodup db)
    (hfind : db.articles.find? (fun x => x.id == aid) = some a)
    (hts : extract_topics_from_text db (learnText a) a.title = ts)
    (hne : ts ≠ [])
    (hmem : t ∈ ts)
    (hrow : lookupProfile db t = some row)
    (hw : row.weight = 1/2) :
    LearnSpec db aid rating now ts t := by
  unfold LearnSpec
  have hnodup : ts.Nodup := by
    rw [← hts]
    exact List.Nodup.filter _ hnd
  have hmain : (t, 1/2 + delta_map rating) ∈ (applyDeltas (delta_map rating) now ts db).2 := by
    have := applyDeltas_mem (delta_map rating) now ts db t row hnodup hmem hrow
    rw [hw] at this
    rw [← clamp01_half_delta rating]
    exact this
  refine ⟨(applyDeltas (delta_map rating) now ts db).1,
    (applyDeltas (delta_map rating) now ts db).2, ?_, applyDeltas_fst_map _ _ _ _,
    hmain, ?_, ?_, ?_, ?_, ?_⟩
  · unfold learn_from_feedback
    rw [hfind]
    simp [hts, hne]
  · rintro rfl
    have e : (1:ℚ)/2 + delta_map 5 = 3/5 := by norm_num [delta_map]
    exact e ▸ hmain
  · rintro rfl
    have e : (1:ℚ)/2 + delta_map 4 = 11/20 := by norm_num [delta_map]
    exact e ▸ hmain
  · rintro rfl
    have e : (1:ℚ)/2 + delta_map 3 = 1/2 := by norm_num [delta_map]
    exact e ▸ hmain
  · rintro rfl
    have e : (1:ℚ)/2 + delta_map 2 = 9/20 := by norm_num [delta_map]
    exact e ▸ hmain
  · rintro rfl
    have e : (1:ℚ)/2 + delta_map 1 = 2/5 := by norm_num [delta_map]
    exact e ▸ hmain

/-- Claim C5: `learn_from_feedback` is a strict no-op — state returned
unchanged and result `none` — when the article does not exist, and
likewise when it exists but its text matches no current profile
topic. -/
theorem C5_learn_noop (db : NewsDB) (aid : Nat) (rating : Int) (now : String) :
    (db.articles.find? (fun x => x.id == aid) = none →
      learn_from_feedback aid rating now db = (db, none)) ∧
    (∀ a, db.articles.find? (fun x => x.id == aid) = some a →
      extract_topics_from_text db (learnText a) a.title = [] →
      learn_from_feedback aid rating now db = (db, none)) := by
  constructor
  · intro h
    unfold learn_from_feedback
    rw [h]
  · intro a h hext
    unfold learn_from_feedback
    rw [h]
    simp [hext]

/-- Claim C4 witness: rating 5 on a one-topic profile at weight 0.5. -/
theorem C4_witness :
    extract_topics_from_text db4 (learnText a4) a4.title = ["teknik"] ∧
      LearnSpec db4 1 5 "t1" ["teknik"] "teknik" := by
  refine ⟨by decide, ?_⟩
  exact C4_learn_delta_table db4 1 5 "t1" a4 ["teknik"] "teknik" row4
    (by decide) rfl (by decide) (by simp)
    (by simp) rfl rfl

/-- Claim C5 witness: feedback on a missing article (id 2) and on an
article matching no topic (id 1, empty profile) both leave the store
untouched and report no updates. -/
theorem C5_witness :
    learn_from_feedback 2 5 "t1" db5 = (db5, none) ∧
      learn_from_feedback 1 5 "t1" db5 = (db5, none) :=
  ⟨(C5_learn_noop db5 2 5 "t1").1 rfl, (C5_learn_noop db5 1 5 "t1").2 a5 rfl rfl⟩

theorem tierPred_true_iff (tname : String) (a : OutArticle) :
    tierPred tname a = true ↔
      ∃ q, effectiveScore a = some q ∧ tierOfScore q = tname := by
  unfold tierPred
  cases h : effectiveScore a <;> simp

theorem tierAnnotate_of_eff (a : OutArticle) (e : ℚ)
    (he : effectiveScore a = some e) :
    tierAnnotate a =
      (if 7/10 ≤ e then Except.ok ⟨a, hasDeepText a, "full", "high"⟩
        else if 2/5 ≤ e then Except.ok ⟨a, hasDeepText a, "compact", "medium"⟩
        else Except.ok ⟨a, hasDeepText a, "minimal", "low"⟩) := by
  unfold tierAnnotate
  rw [he]

theorem tierPred_of_eff (tname : String) (a : OutArticle) (e : ℚ)
    (he : effectiveScore a = some e) :
    tierPred tname a = (tierOfScore e == tname) := by
  unfold tierPred
  rw [he]

/-- Characterisation of a successful tiering pass: each tier list is
exactly the input filtered by its tier predicate (annotation
stripped). -/
theorem tierPass_char (l : List OutArticle) (h : AllScored l) :
    ∃ r : TierLists, tierPass l = Except.ok r ∧
      r.high.map (fun x => x.base) = l.filter (tierPred "high") ∧
      r.medium.map (fun x => x.base) = l.filter (tierPred "medium") ∧
      r.low.map (fun x => x.base) = l.filter (tierPred "low") := by
  induction l with
  | nil => exact ⟨⟨[], [], []⟩, rfl, rfl, rfl, rfl⟩
  | cons a rest ih =>
    obtain ⟨r, hr, h1, h2, h3⟩ := ih (fun x hx => h x (List.mem_cons_of_mem _ hx))
    obtain ⟨q, hq⟩ := Option.isSome_iff_exists.mp (h a (List.mem_cons_self _ _))
    have heff : effectiveScore a = some (if hasDeepText a then max q (3/4) else q) := by
      unfold effectiveScore
      rw [hq]
    set e := if hasDeepText a then max q (3/4) else q with he
    by_cases h7 : (7:ℚ)/10 ≤ e
    · have hann := tierAnnotate_of_eff a e heff
      rw [if_pos h7] at hann
      have hpH : tierPred "high" a = true := by
        rw [tierPred_of_eff _ a e heff]
        unfold tierOfScore
        rw [if_pos h7]
        rfl
      have hpM : tierPred "medium" a = false := by
        rw [tierPred_of_eff _ a e heff]
        unfold tierOfScore
        rw [if_pos h7]
        rfl
      have hpL : tierPred "low" a = false := by
        rw [tierPred_of_eff _ a e heff]
        unfold tierOfScore
        rw [if_pos h7]
        rfl
      refine ⟨⟨⟨a, hasDeepText a, "full", "high"⟩ :: r.high, r.medium, r.low⟩, ?_, ?_, ?_, ?_⟩
      · unfold tierPass
        rw [hann, hr]
        simp
      · simp [List.filter_cons, hpH, h1]
      · simp [List.filter_cons, hpM, h2]
      · simp [List.filter_cons, hpL, h3]
    · by_cases h4 : (2:ℚ)/5 ≤ e
      · have hann := tierAnnotate_of_eff a e heff
        rw [if_neg h7, if_pos h4] at hann
        have hpH : tierPred "high" a = false := by
          rw [tierPred_of_eff _ a e heff]
          unfold tierOfScore
          rw [if_neg h7, if_pos h4]
          rfl
        have hpM : tierPred "medium" a = true := by
          rw [tierPred_of_eff _ a e heff]
          unfold tierOfScore
          rw [if_neg h7, if_pos h4]
          rfl
        have hpL : tierPred "low" a = false := by
          rw [tierPred_of_eff _ a e heff]
          unfold tierOfScore
          rw [if_neg h7, if_pos h4]
          rfl
        refine ⟨⟨r.high, ⟨a, hasDeepText a, "compact", "medium"⟩ :: r.medium, r.low⟩,
          ?_, ?_, ?_, ?_⟩
        · unfold tierPass
          rw [hann, hr]
          simp
        · simp [List.filter_cons, hpH, h1]
        · simp [List.filter_cons, hpM, h2]
        · simp [List.filter_cons, hpL, h3]
      · have hann := tierAnnotate_of_eff a e heff
        rw [if_neg h7, if_neg h4] at hann
        have hpH : tierPred "high" a = false := by
          rw [tierPred_of_eff _ a e heff]
          unfold tierOfScore
          rw [if_neg h7, if_neg h4]
          rfl
        have hpM : tierPred "medium" a = false := by
          rw [tierPred_of_eff _ a e heff]
          unfold tierOfScore
          rw [if_neg h7, if_neg h4]
          rfl
        have hpL : tierPred "low" a = true := by
          rw [tierPred_of_eff _ a e heff]
          unfold tierOfScore
          rw [if_neg h7, if_neg h4]
          rfl
        refine ⟨⟨r.high, r.medium, ⟨a, hasDeepText a, "minimal", "low"⟩ :: r.low⟩,
          ?_, ?_, ?_, ?_⟩
        · unfold tierPass
          rw [hann, hr]
          simp
        · simp [List.filter_cons, hpH, h1]
        · simp [List.filter_cons, hpM, h2]
        · simp [List.filter_cons, hpL, h3]

/-- Three mutually exclusive, jointly exhaustive predicates split a
list into a permutation of itself. -/
theorem filter3_perm {α : Type} (p₁ p₂ p₃ : α → Bool) (l : List α)
    (h : ∀ a ∈ l,
      (p₁ a = true ∧ p₂ a = false ∧ p₃ a = false) ∨
      (p₁ a = false ∧ p₂ a = true ∧ p₃ a = false) ∨
      (p₁ a = false ∧ p₂ a = false ∧ p₃ a = true)) :
    List.Perm (l.filter p₁ ++ l.filter p₂ ++ l.filter p₃) l := by
  induction l with
  | nil => simp
  | cons a rest ih =>
    have hrest := ih (fun x hx => h x (List.mem_cons_of_mem _ hx))
    rcases h a (List.mem_cons_self _ _) with ⟨h1, h2, h3⟩ | ⟨h1, h2, h3⟩ | ⟨h1, h2, h3⟩
    · simp only [List.filter_cons, h1, h2, h3, if_true, if_false, Bool.false_eq_true,
        List.cons_append]
      exact hrest.cons a
    · simp only [List.filter_cons, h1, h2, h3, if_true, if_false, Bool.false_eq_true]
      have hshape : (rest.filter p₁ ++ (a :: rest.filter p₂) ++ rest.filter p₃) =
          rest.filter p₁ ++ a :: (rest.filter p₂ ++ rest.filter p₃) := by
        simp [List.append_assoc]
      rw [hshape]
      refine List.perm_middle.trans ?_
      refine List.Perm.cons a ?_
      rw [← List.append_assoc]
      exact hrest
    · simp only [List.filter_cons, h1, h2, h3, if_true, if_false, Bool.false_eq_true]
      exact List.perm_middle.trans (hrest.cons a)

/-- Exactly one tier predicate holds for a scored article. -/
theorem tierPred_trichotomy (a : OutArticle)
    (hs : a.base.relevance_score.isSome = true) :
    (tierPred "high" a = true ∧ tierPred "medium" a = false ∧ tierPred "low" a = false) ∨
    (tierPred "high" a = false ∧ tierPred "medium" a = true ∧ tierPred "low" a = false) ∨
    (tierPred "high" a = false ∧ tierPred "medium" a = false ∧ tierPred "low" a = true) := by
  obtain ⟨q, hq⟩ := Option.isSome_iff_exists.mp hs
  have heff : effectiveScore a = some (if hasDeepText a then max q (3/4) else q) := by
    unfold effectiveScore
    rw [hq]
  set e := if hasDeepText a then max q (3/4) else q with he
  rw [tierPred_of_eff _ a e heff, tierPred_of_eff _ a e heff, tierPred_of_eff _ a e heff]
  unfold tierOfScore
  by_cases h7 : (7:ℚ)/10 ≤ e
  · left
    rw [if_pos h7]
    exact ⟨rfl, rfl, rfl⟩
  · by_cases h4 : (2:ℚ)/5 ≤ e
    · right; left
      rw [if_neg h7, if_pos h4]
      exact ⟨rfl, rfl, rfl⟩
    · right; right
      rw [if_neg h7, if_neg h4]
      exact ⟨rfl, rfl, rfl⟩

theorem tierPred_string_clash (a : OutArticle) (t₁ t₂ : String)
    (h₁ : tierPred t₁ a = true) (h₂ : tierPred t₂ a = true) (hne : t₁ ≠ t₂) : False := by
  obtain ⟨q₁, e₁, r₁⟩ := (tierPred_true_iff t₁ a).mp h₁
  obtain ⟨q₂, e₂, r₂⟩ := (tierPred_true_iff t₂ a).mp h₂
  rw [e₁] at e₂
  injection e₂ with e₂
  exact hne (r₁ ▸ e₂ ▸ r₂ ▸ rfl)

/-- Claim C2: over a list of scored articles the grouped tiering pass
is a partition — the tier lists are pairwise disjoint, their union is
exactly the input, and effective scores 0.7 and 0.4 are assigned tiers
`high` and `medium`. -/
theorem C2_tier_partition (l : List OutArticle) (h : AllScored l) : TierPartition l := by
  obtain ⟨r, hr, h1, h2, h3⟩ := tierPass_char l h
  refine ⟨r, hr, ?_, ?_, ?_, ?_, ?_, ?_⟩
  · rw [h1, h2, h3]
    exact filter3_perm _ _ _ l (fun a ha => tierPred_trichotomy a (h a ha))
  · intro a haH haM
    rw [h1, List.mem_filter] at haH
    rw [h2, List.mem_filter] at haM
    exact tierPred_string_clash a "high" "medium" haH.2 haM.2 (by simp)
  · intro a haH haL
    rw [h1, List.mem_filter] at haH
    rw [h3, List.mem_filter] at haL
    exact tierPred_string_clash a "high" "low" haH.2 haL.2 (by simp)
  · intro a haM haL
    rw [h2, List.mem_filter] at haM
    rw [h3, List.mem_filter] at haL
    exact tierPred_string_clash a "medium" "low" haM.2 haL.2 (by simp)
  · intro a ha he
    rw [h1, List.mem_filter]
    refine ⟨ha, (tierPred_true_iff _ a).mpr ⟨7/10, he, ?_⟩⟩
    unfold tierOfScore
    rw [if_pos (by norm_num)]
  · intro a ha he
    rw [h2, List.mem_filter]
    refine ⟨ha, (tierPred_true_iff _ a).mpr ⟨2/5, he, ?_⟩⟩
    unfold tierOfScore
    rw [if_neg (by norm_num), if_pos (by norm_num)]

/-- Claim C2 witness: the partition property on a concrete two-article
list with boundary scores 0.7 and 0.4. -/
theorem C2_witness : AllScored lw2 ∧ TierPartition lw2 :=
  ⟨by decide, C2_tier_partition lw2 (by decide)⟩

/-- The floor branch of the tiering loop in isolation: for an input
dict that still carries a non-empty `deep_analysis` field and a stored
score, the loop does compute `max(storedScore, 0.75)` and annotates a
0.2-scored article `high`.  This is the evident intent of the floor
code — but the loop never receives such a dict, because the tool's
query strips the `deep_analysis` column (see the stripped-column
theorem below). -/
theorem deepFloor_loop_intent (a : OutArticle) (q : ℚ)
    (hq : a.base.relevance_score = some q) :
    (hasDeepText a = true → effectiveScore a = some (max q (3/4))) ∧
    (hasDeepText a = false → effectiveScore a = some q) ∧
    (hasDeepText a = true → q = 1/5 →
      tierAnnotate a = Except.ok ⟨a, true, "full", "high"⟩) := by
  have heff : effectiveScore a = some (if hasDeepText a then max q (3/4) else q) := by
    unfold effectiveScore
    rw [hq]
  refine ⟨?_, ?_, ?_⟩
  · intro hd
    rw [heff, if_pos hd]
  · intro hd
    rw [heff, hd]
    simp
  · intro hd hq5
    have he : effectiveScore a = some (max q (3/4)) := by rw [heff, if_pos hd]
    rw [tierAnnotate_of_eff a _ he, if_pos ?_, hd]
    rw [hq5]
    rw [max_eq_right (by norm_num)]
    norm_num

/-- The floor branch exercised on a concrete dict that retains its
non-empty deep analysis and stored score 0.2. -/
theorem deepFloor_loop_intent_inst :
    aDeep.base.relevance_score = some (1/5) ∧ hasDeepText aDeep = true ∧
      ((hasDeepText aDeep = true → effectiveScore aDeep = some (max (1/5) (3/4))) ∧
       (hasDeepText aDeep = false → effectiveScore aDeep = some (1/5)) ∧
       (hasDeepText aDeep = true → (1:ℚ)/5 = 1/5 →
         tierAnnotate aDeep = Except.ok ⟨aDeep, true, "full", "high"⟩)) :=
  ⟨rfl, by decide, deepFloor_loop_intent aDeep (1/5) rfl⟩

/-- Claim C3 (code bug): the deep-analysis floor is dead code in the
program.  The tiering loop runs only on dicts from the tool's query,
which selects without `include_content` and therefore without the
`deep_analysis` column — so for a stored article with non-empty
deep-analysis text and score 0.2, the grouped tool call annotates it
`has_deep_analysis = false` and classifies it tier `low`, not `high`
with effective score `max(0.2, 0.75)` as the claim (and the floor
branch's own intent) states. -/
theorem C3_deep_floor_stripped :
    a3row.deep_analysis = some "analys" ∧
    a3row.relevance_score = some (1/5) ∧
    out3.base.deep_analysis = none ∧
    get_articles_tool (GetArticlesArgs.mk "all" none none none none none none 0
        "relevance_desc" true) envW db3 =
      ToolResult.groupedOk [out3]
        (TierLists.mk [] [] [TieredArticle.mk out3 false "minimal" "low"])
        (0, 0, 1) 1 := by
  refine ⟨rfl, rfl, rfl, ?_⟩
  have heff : effectiveScore out3 = some (1/5) := rfl
  have hann : tierAnnotate out3 =
      Except.ok (TieredArticle.mk out3 false "minimal" "low") := by
    rw [tierAnnotate_of_eff out3 (1/5) heff, if_neg (by norm_num),
      if_neg (by norm_num)]
    rfl
  have hpass : tierPass [out3] =
      Except.ok (TierLists.mk [] [] [TieredArticle.mk out3 false "minimal" "low"]) := by
    unfold tierPass
    rw [hann]
    rfl
  have hstep : get_articles_tool (GetArticlesArgs.mk "all" none none none none none
      none 0 "relevance_desc" true) envW db3 =
      (match tierPass [out3] with
        | Except.error _ => ToolResult.failure "TypeError"
        | Except.ok r => ToolResult.groupedOk [out3] r
            (r.high.length, r.medium.length, r.low.length) 1) := rfl
  rw [hstep, hpass]
  rfl

/-- Claim C8: the advanced query is read-only — for every filter
configuration, sort order, pagination setting and grouping mode it
returns the store unchanged, so no article's read flag (or any other
stored field) ever changes; only the separate `mark_as_read` operation
mutates the read flag. -/
theorem C8_query_read_only (cfg : QueryConfig) (env : SqlEnv) (db : NewsDB) :
    (query_articles_advanced cfg env db).1 = db ∧
      (query_articles_advanced cfg env db).1.articles = db.articles :=
  ⟨rfl, rfl⟩

/-- Claim C9 (code bug): on a corpus containing an unanalyzed article
the grouped `get_articles_tool` call does not produce a success-shaped
tiered result — the loop's `None >= 0.7` comparison raises `TypeError`,
the blanket handler catches it, and the tool returns a failure response
with `success: False`. -/
theorem C9_grouped_failure_on_unanalyzed :
    get_articles_tool (GetArticlesArgs.mk "all" none none none none none none 0
        "relevance_desc" true) envW db9 =
      ToolResult.failure "TypeError" ∧
    (get_articles_tool (GetArticlesArgs.mk "all" none none none none none none 0
        "relevance_desc" true) envW db9).success = false :=
  ⟨rfl, rfl⟩

/-- Claim C6: the AI-accuracy statistic counts discrepancies
(`|score − rating/5| > 0.3`) over feedback/article pairs that carry a
score, reports `1 − discrepancies/total` with 1.0 for an empty
denominator, and on the concrete two-article corpus with scores
0.8/0.2 and ratings 5/5 finds exactly one discrepancy and accuracy
0.5. -/
theorem C6_accuracy_scorer :
    (∀ db : NewsDB, total_with_scores db = 0 → accuracy_rate db = 1) ∧
    (∀ db : NewsDB, total_with_scores db ≠ 0 →
      accuracy_rate db = 1 - (discrepancies db : ℚ) / (total_with_scores db : ℚ)) ∧
    total_with_scores db6 = 2 ∧
    discrepancies db6 = 1 ∧
    accuracy_rate db6 = 1/2 := by
  have htot : total_with_scores db6 = 2 := rfl
  have hpairs : fbArticlePairs db6 =
      [(FeedbackRow.mk 1 1 5 none "t1",
        ArticleRow.mk 1 "u61" "A" none none none "S" none "f" (some (4/5)) false "c"),
       (FeedbackRow.mk 2 2 5 none "t2",
        ArticleRow.mk 2 "u62" "B" none none none "S" none "f" (some (1/5)) false "c")] := rfl
  have hdisc : discrepancies db6 = 1 := by
    unfold discrepancies
    rw [hpairs]
    rw [List.countP_cons, List.countP_cons, List.countP_nil]
    norm_num
    rw [abs_of_nonneg (by norm_num : (0:ℚ) ≤ 4/5),
      abs_of_nonneg (by norm_num : (0:ℚ) ≤ 1/5)]
    norm_num
  refine ⟨?_, ?_, htot, hdisc, ?_⟩
  · intro db h
    unfold accuracy_rate
    rw [if_pos h]
  · intro db h
    unfold accuracy_rate
    rw [if_neg h]
  · unfold accuracy_rate
    rw [htot, hdisc]
    norm_num

/-- Claim C6 witness: the nonzero-denominator formula applied to the
concrete corpus. -/
theorem C6_witness :
    accuracy_rate db6 = 1 - (discrepancies db6 : ℚ) / (total_with_scores db6 : ℚ) :=
  C6_accuracy_scorer.2.1 db6 (by rw [show total_with_scores db6 = 2 from rfl]; norm_num)

/-- Counting the rows of one join block that belong to article id
`aid` and whose feedback half satisfies a row condition `c` that is
false on the NULL row. -/
theorem joinBlock_countP (db : NewsDB) (b : ArticleRow) (aid : Nat)
    (c : (ArticleRow × Option FeedbackRow) → Bool) (condF : FeedbackRow → Bool)
    (hsome : ∀ x f, c (x, some f) = condF f) (hnone : ∀ x, c (x, none) = false) :
    (joinBlock db b).countP (fun r => r.1.id == aid && c r) =
      if b.id == aid then ((feedbackFor db b.id).filter condF).length else 0 := by
  unfold joinBlock
  by_cases hfs : (feedbackFor db b.id).isEmpty
  · rw [if_pos hfs, List.isEmpty_iff.mp hfs]
    simp [List.countP_cons, hnone]
  · rw [if_neg hfs, List.countP_map]
    by_cases hid : (b.id == aid) = true
    · rw [if_pos hid, ← List.countP_eq_length_filter]
      apply List.countP_congr
      intro f _
      simp [Function.comp, hid, hsome]
    · rw [if_neg hid]
      have hid' : (b.id == aid) = false := by
        revert hid
        cases b.id == aid <;> simp
      rw [List.countP_eq_zero.mpr]
      intro f _
      simp [Function.comp, hid']

/-- A block of an article with a different id contributes nothing. -/
theorem joinBlocks_sum_zero (db : NewsDB) (aid : Nat)
    (c : (ArticleRow × Option FeedbackRow) → Bool) (condF : FeedbackRow → Bool)
    (hsome : ∀ x f, c (x, some f) = condF f) (hnone : ∀ x, c (x, none) = false)
    (l : List ArticleRow) (hl : ∀ x ∈ l, (x.id == aid) = false) :
    ((l.map (fun b => (joinBlock db b).countP (fun r => r.1.id == aid && c r))).sum) = 0 := by
  induction l with
  | nil => rfl
  | cons b rest ih =>
    rw [List.map_cons, List.sum_cons,
      joinBlock_countP db b aid c condF hsome hnone,
      if_neg (by rw [hl b (List.mem_cons_self _ _)]; exact Bool.false_ne_true),
      ih (fun x hx => hl x (List.mem_cons_of_mem _ hx))]

/-- Counting the filtered join rows of one article: exactly its
qualifying feedback rows, provided article ids are unique. -/
theorem joinFiltered_count (db : NewsDB) (a : ArticleRow)
    (c : (ArticleRow × Option FeedbackRow) → Bool) (condF : FeedbackRow → Bool)
    (hsome : ∀ x f, c (x, some f) = condF f) (hnone : ∀ x, c (x, none) = false)
    (hnd : (db.articles.map (fun x => x.id)).Nodup) (ha : a ∈ db.articles) :
    (listJoin (db.articles.map (joinBlock db))).countP
        (fun r => r.1.id == a.id && c r) =
      ((feedbackFor db a.id).filter condF).length := by
  rw [countP_listJoin, List.map_map]
  have aux : ∀ l : List ArticleRow, (l.map (fun x => x.id)).Nodup → a ∈ l →
      ((l.map (fun b =>
        (joinBlock db b).countP (fun r => r.1.id == a.id && c r))).sum) =
      ((feedbackFor db a.id).filter condF).length := by
    intro l hl hal
    induction l with
    | nil => cases hal
    | cons b rest ih =>
      rw [List.map_cons, List.sum_cons,
        joinBlock_countP db b a.id c condF hsome hnone]
      rw [List.map_cons, List.nodup_cons] at hl
      by_cases hid : (b.id == a.id) = true
      · rw [if_pos hid]
        have hb : b.id = a.id := by simpa using hid
        have hrest0 : ∀ x ∈ rest, (x.id == a.id) = false := by
          intro x hx
          have hxne : x.id ≠ b.id := by
            intro hcontra
            exact hl.1 (hcontra ▸ List.mem_map_of_mem (fun y => y.id) hx)
          exact beq_eq_false_iff_ne.mpr (fun h => hxne (h.trans hb.symm))
        rw [joinBlocks_sum_zero db a.id c condF hsome hnone rest hrest0]
        rw [hb]
        simp
      · rw [if_neg hid]
        have hmem : a ∈ rest := by
          rcases List.mem_cons.mp hal with rfl | h
          · exact absurd (by simp) hid
          · exact h
        rw [ih hl.2 hmem]
        simp
  exact aux db.articles hnd ha

/-- Counting the surviving rows of one article id after `GROUP BY
a.id`: one if any row survived, zero otherwise. -/
theorem dedupe_countP (i : Nat) (rows : List (ArticleRow × Option FeedbackRow))
    (seen : List Nat) :
    (dedupeById seen rows).countP (fun r => r.1.id == i) =
      if i ∈ seen then 0 else min 1 (rows.countP (fun r => r.1.id == i)) := by
  induction rows generalizing seen with
  | nil =>
    by_cases hi : i ∈ seen <;> simp [dedupeById, hi]
  | cons r rs ih =>
    rw [show dedupeById seen (r :: rs) =
      (if seen.contains r.1.id then dedupeById seen rs
        else r :: dedupeById (r.1.id :: seen) rs) from rfl]
    by_cases hm : r.1.id ∈ seen
    · rw [if_pos (by simpa using hm), ih seen]
      by_cases hi : i ∈ seen
      · rw [if_pos hi, if_pos hi]
      · have hri : (r.1.id == i) = false :=
          beq_eq_false_iff_ne.mpr (fun h => hi (h ▸ hm))
        rw [if_neg hi, if_neg hi, List.countP_cons, hri]
        simp
    · rw [if_neg (by simpa using hm), List.countP_cons, ih (r.1.id :: seen)]
      by_cases hi : i ∈ seen
      · have hii : i ∈ r.1.id :: seen := List.mem_cons_of_mem _ hi
        have hri : (r.1.id == i) = false :=
          beq_eq_false_iff_ne.mpr (fun h => hm (h ▸ hi))
        rw [if_pos hii, if_pos hi, hri]
        simp
      · by_cases hri : r.1.id = i
        · have hrib : (r.1.id == i) = true := by simp [hri]
          have hii : i ∈ r.1.id :: seen := by
            rw [← hri]
            exact List.mem_cons_self _ _
          rw [if_pos hii, hrib, if_neg hi, List.countP_cons, hrib]
          simp
        · have hrib : (r.1.id == i) = false := beq_eq_false_iff_ne.mpr hri
          have hii : i ∉ r.1.id :: seen := by
            intro hcontra
            rcases List.mem_cons.mp hcontra with h | h
            · exact hri h.symm
            · exact hi h
          rw [if_neg hii, if_neg hi, List.countP_cons, hrib]
          simp

theorem stripRow_id (cfg : QueryConfig) (a : ArticleRow) : (stripRow cfg a).id = a.id := by
  unfold stripRow
  split <;> rfl

/-- Generic success shape and per-article multiplicity of a query whose
`WHERE` clause is a single feedback condition, with no pagination and
no source grouping. -/
theorem query_count_pipeline (cfg : QueryConfig) (env : SqlEnv) (db : NewsDB)
    (c : QCond) (condF : FeedbackRow → Bool)
    (hconds : conds cfg env db = [c])
    (hjoin : needJoin cfg = true)
    (hstats : cfg.stats_only = false)
    (hlimit : cfg.limit = none) (hoffset : cfg.offset = 0)
    (hgroup : (cfg.group_by == some "source") = false)
    (hsome : ∀ x f, c (x, some f) = condF f) (hnone : ∀ x, c (x, none) = false)
    (a : ArticleRow) (hnd : IdsNodup db) (ha : a ∈ db.articles) :
    ∃ arts, queryCompute cfg env db = Except.ok (QueryResult.plain arts arts.length) ∧
      arts.countP (fun o => o.base.id == a.id) =
        (if (cfg.include_feedback || cfg.group_by == some "article") = true then
          min 1 (((feedbackFor db a.id).filter condF).length)
        else ((feedbackFor db a.id).filter condF).length) := by
  have hpaged : pagedRows cfg (sortedRows cfg env db) =
      Except.ok (sortedRows cfg env db) := by
    unfold pagedRows
    rw [hlimit]
    rw [show truthyNat none = false from rfl]
    rw [hoffset]
    simp
  have hquery : queryCompute cfg env db =
      Except.ok (QueryResult.plain ((sortedRows cfg env db).map (mkOut cfg db))
        ((sortedRows cfg env db).map (mkOut cfg db)).length) := by
    unfold queryCompute
    rw [if_neg (by simp [hstats]), hpaged]
    simp only [hgroup, Bool.false_eq_true, if_false]
  refine ⟨(sortedRows cfg env db).map (mkOut cfg db), hquery, ?_⟩
  rw [List.countP_map]
  have hpred : ∀ x ∈ sortedRows cfg env db,
      (((fun o => o.base.id == a.id) ∘ mkOut cfg db) x) = true ↔
        (x.1.id == a.id) = true := by
    intro row _
    show ((stripRow cfg row.1).id == a.id) = true ↔ _
    rw [stripRow_id]
  rw [List.countP_congr hpred]
  have hsortperm := sortLe_perm (rowLe cfg.sort_by) (groupedRows cfg env db)
  rw [show sortedRows cfg env db = sortLe (rowLe cfg.sort_by) (groupedRows cfg env db)
    from rfl]
  rw [hsortperm.countP_eq]
  have hfiltcount : (filteredRows cfg env db).countP (fun r => r.1.id == a.id) =
      ((feedbackFor db a.id).filter condF).length := by
    unfold filteredRows
    rw [List.countP_filter]
    have hjr : joinRows cfg db = listJoin (db.articles.map (joinBlock db)) := by
      unfold joinRows
      rw [hjoin]
      simp
    rw [hjr]
    rw [List.countP_congr (fun r _ => ?_)]
    · exact joinFiltered_count db a c condF hsome hnone hnd ha
    · show (r.1.id == a.id && wherePass cfg env db r) = true ↔
        (r.1.id == a.id && c r) = true
      unfold wherePass
      rw [hconds]
      simp
  unfold groupedRows
  by_cases hded : (cfg.include_feedback || cfg.group_by == some "article") = true
  · rw [if_pos hded, if_pos hded]
    rw [dedupe_countP a.id (filteredRows cfg env db) []]
    rw [if_neg (List.not_mem_nil a.id), hfiltcount]
  · rw [if_neg hded, if_neg hded]
    exact hfiltcount

theorem min_one_eq_ite (k : Nat) : min 1 k = if k = 0 then 0 else 1 := by
  rcases Nat.eq_zero_or_pos k with h | h
  · subst h
    rfl
  · rw [if_neg (Nat.pos_iff_ne_zero.mp h)]
    omega

set_option maxHeartbeats 2000000 in
/-- Claim C10: the feedback join is not de-duplicated — with a bare
minimum-rating or has-any-feedback filter an article appears once per
qualifying feedback row in the flat list and contributes that count to
the total, while include-feedback or group-by-article yield one row per
matching article. -/
theorem C10_feedback_join_multiplicity (db : NewsDB) (env : SqlEnv) (a : ArticleRow)
    (r : ℚ) (hnd : IdsNodup db) (ha : a ∈ db.articles) : JoinDupSpec db env a r := by
  refine ⟨?_, ?_, ?_, ?_⟩
  · exact query_count_pipeline (cfgMR r) env db _
      (fun f => decide (r ≤ (f.rating : ℚ))) rfl rfl rfl rfl rfl rfl
      (fun x f => rfl) (fun x => rfl) a hnd ha
  · obtain ⟨arts, h1, h2⟩ := query_count_pipeline cfgWF env db _
      (fun _ => true) rfl rfl rfl rfl rfl rfl
      (fun x f => rfl) (fun x => rfl) a hnd ha
    refine ⟨arts, h1, ?_⟩
    rw [h2]
    show (List.filter (fun _ => true) (feedbackFor db a.id)).length = _
    rw [List.filter_true]
    rfl
  · obtain ⟨arts, h1, h2⟩ := query_count_pipeline (cfgMRG r) env db _
      (fun f => decide (r ≤ (f.rating : ℚ))) rfl rfl rfl rfl rfl rfl
      (fun x f => rfl) (fun x => rfl) a hnd ha
    refine ⟨arts, h1, ?_⟩
    rw [h2]
    show min 1 (ratedCount db a.id r) = _
    exact min_one_eq_ite _
  · obtain ⟨arts, h1, h2⟩ := query_count_pipeline (cfgMRF r) env db _
      (fun f => decide (r ≤ (f.rating : ℚ))) rfl rfl rfl rfl rfl rfl
      (fun x f => rfl) (fun x => rfl) a hnd ha
    refine ⟨arts, h1, ?_⟩
    rw [h2]
    show min 1 (ratedCount db a.id r) = _
    exact min_one_eq_ite _

/-- Claim C10 witness: the multiplicity facts on a concrete store. -/
theorem C10_witness : IdsNodup db10 ∧ aw10 ∈ db10.articles ∧
    JoinDupSpec db10 envW aw10 4 :=
  ⟨by decide, by decide,
    C10_feedback_join_multiplicity db10 envW aw10 4 (by decide) (by decide)⟩

/-! ## Claim C7: the free-text search filter -/
theorem all_conds_of_wherePass (cfg : QueryConfig) (env : SqlEnv) (db : NewsDB)
    (r : ArticleRow × Option FeedbackRow) (hw : wherePass cfg env db r = true) :
    ∀ c ∈ conds cfg env db, c r = true := by
  unfold wherePass at hw
  exact List.all_eq_true.mp hw

/-- A valid scope selector yields a nonempty per-field condition
list. -/
theorem searchFieldConds_ne_empty (cfg : QueryConfig) (q : String)
    (hscope : cfg.search_in = "all" ∨ cfg.search_in = "title" ∨
      cfg.search_in = "content" ∨ cfg.search_in = "summary") :
    (searchFieldConds cfg q).isEmpty = false := by
  unfold searchFieldConds
  rcases hscope with h | h | h | h <;> rw [h] <;> rfl

/-- The OR-combined search condition is one of the appended `WHERE`
conditions whenever a nonempty search string is supplied. -/
theorem searchCond_mem (cfg : QueryConfig) (env : SqlEnv) (db : NewsDB)
    (hq : truthyStr cfg.search_query = true)
    (hscs : (searchFieldConds cfg (cfg.search_query.getD "")).isEmpty = false) :
    (fun r => (searchFieldConds cfg (cfg.search_query.getD "")).any (fun c => c r)) ∈
      conds cfg env db := by
  unfold conds
  refine List.mem_append_left _ (List.mem_append_left _ (List.mem_append_left _
    (List.mem_append_left _ (List.mem_append_right _ ?_))))
  rw [if_pos hq]
  simp only [hscs, Bool.false_eq_true, if_false]
  exact List.mem_singleton.mpr rfl

/-- Reading the OR of the per-field conditions back into the per-field
facts it asserts. -/
theorem searchAny_implies (cfg : QueryConfig) (q : String)
    (r : ArticleRow × Option FeedbackRow)
    (h : (searchFieldConds cfg q).any (fun c => c r) = true) :
    ((cfg.search_in = "all" ∨ cfg.search_in = "title") ∧ likeMatch q r.1.title = true) ∨
    ((cfg.search_in = "all" ∨ cfg.search_in = "content") ∧
      ∃ c, r.1.content = some c ∧ likeMatch q c = true) ∨
    ((cfg.search_in = "all" ∨ cfg.search_in = "summary") ∧
      ∃ s, r.1.summary = some s ∧ likeMatch q s = true) := by
  unfold searchFieldConds at h
  simp only [List.any_append, Bool.or_eq_true] at h
  rcases h with (h | h) | h
  · by_cases hsc : cfg.search_in = "all" ∨ cfg.search_in = "title"
    · rw [if_pos hsc] at h
      simp only [List.any_cons, List.any_nil, Bool.or_false] at h
      exact Or.inl ⟨hsc, h⟩
    · rw [if_neg hsc] at h
      simp at h
  · by_cases hsc : cfg.search_in = "all" ∨ cfg.search_in = "content"
    · rw [if_pos hsc] at h
      simp only [List.any_cons, List.any_nil, Bool.or_false] at h
      refine Or.inr (Or.inl ⟨hsc, ?_⟩)
      cases hc : r.1.content with
      | none => rw [hc] at h; simp at h
      | some c =>
        rw [hc] at h
        exact ⟨c, rfl, h⟩
    · rw [if_neg hsc] at h
      simp at h
  · by_cases hsc : cfg.search_in = "all" ∨ cfg.search_in = "summary"
    · rw [if_pos hsc] at h
      simp only [List.any_cons, List.any_nil, Bool.or_false] at h
      refine Or.inr (Or.inr ⟨hsc, ?_⟩)
      cases hc : r.1.summary with
      | none => rw [hc] at h; simp at h
      | some s =>
        rw [hc] at h
        exact ⟨s, rfl, h⟩
    · rw [if_neg hsc] at h
      simp at h

theorem paged_subset (cfg : QueryConfig) (rows out : List (ArticleRow × Option FeedbackRow))
    (h : pagedRows cfg rows = Except.ok out) : ∀ x ∈ out, x ∈ rows := by
  unfold pagedRows at h
  by_cases hl : truthyNat cfg.limit = true
  · rw [if_pos hl] at h
    by_cases ho : cfg.offset > 0
    · rw [if_pos ho] at h
      injection h with h
      subst h
      intro x hx
      exact List.drop_subset _ _ (List.take_subset _ _ hx)
    · rw [if_neg ho] at h
      injection h with h
      subst h
      intro x hx
      exact List.take_subset _ _ hx
  · rw [if_neg hl] at h
    by_cases ho : cfg.offset > 0
    · rw [if_pos ho] at h
      cases h
    · rw [if_neg ho] at h
      injection h with h
      subst h
      exact fun x hx => hx

theorem dedupe_subset (seen : List Nat)
    (rows : List (ArticleRow × Option FeedbackRow)) :
    ∀ x ∈ dedupeById seen rows, x ∈ rows := by
  induction rows generalizing seen with
  | nil => intro x hx; cases hx
  | cons r rs ih =>
    intro x hx
    rw [show dedupeById seen (r :: rs) =
      (if seen.contains r.1.id then dedupeById seen rs
        else r :: dedupeById (r.1.id :: seen) rs) from rfl] at hx
    by_cases hc : seen.contains r.1.id = true
    · rw [if_pos hc] at hx
      exact List.mem_cons_of_mem _ (ih seen x hx)
    · rw [if_neg hc] at hx
      rcases List.mem_cons.mp hx with rfl | hx'
      · exact List.mem_cons_self _ _
      · exact List.mem_cons_of_mem _ (ih (r.1.id :: seen) x hx')

theorem joinRows_article (cfg : QueryConfig) (db : NewsDB)
    (x : ArticleRow × Option FeedbackRow) (hx : x ∈ joinRows cfg db) :
    x.1 ∈ db.articles := by
  unfold joinRows at hx
  by_cases hj : needJoin cfg = true
  · rw [if_pos hj] at hx
    rw [mem_listJoin] at hx
    obtain ⟨bl, hbl, hxbl⟩ := hx
    obtain ⟨a, hadb, hblock⟩ := List.mem_map.mp hbl
    subst hblock
    unfold joinBlock at hxbl
    by_cases hfs : (feedbackFor db a.id).isEmpty = true
    · rw [if_pos hfs] at hxbl
      rcases List.mem_singleton.mp hxbl with rfl
      exact hadb
    · rw [if_neg hfs] at hxbl
      obtain ⟨f, _, hf⟩ := List.mem_map.mp hxbl
      rw [← hf]
      exact hadb
  · rw [if_neg hj] at hx
    obtain ⟨a, hadb, hf⟩ := List.mem_map.mp hx
    rw [← hf]
    exact hadb

/-- Claim C7 (amended): matching is SQLite `LIKE`, i.e. ASCII-case-
insensitive — for every configuration with a nonempty, wildcard-free
search string and a valid scope selector, an article is returned only
if the search string occurs case-insensitively in at least one
scope-selected field (OR-combined). -/
theorem C7_search_scope_only_if (cfg : QueryConfig) (env : SqlEnv) (db : NewsDB)
    (q : String) (hq : cfg.search_query = some q) (hne : q ≠ "")
    (hw : noWild q = true)
    (hscope : cfg.search_in = "all" ∨ cfg.search_in = "title" ∨
      cfg.search_in = "content" ∨ cfg.search_in = "summary")
    (res : QueryResult) (hres : queryCompute cfg env db = Except.ok res)
    (out : OutArticle) (hout : out ∈ resultArticles res) :
    SearchOnlyIf cfg db q out := by
  unfold queryCompute at hres
  by_cases hstats : cfg.stats_only = true
  · rw [if_pos hstats] at hres
    injection hres with hres
    rw [← hres] at hout
    cases hout
  · rw [if_neg hstats] at hres
    cases hpg : pagedRows cfg (sortedRows cfg env db) with
    | error e =>
      rw [hpg] at hres
      cases hres
    | ok rows =>
      rw [hpg] at hres
      have hres2 : (if (cfg.group_by == some "source") = true then
          Except.ok (QueryResult.groupedBySource (rows.map (mkOut cfg db))
            (groupBySource (rows.map (mkOut cfg db))) (rows.map (mkOut cfg db)).length)
        else Except.ok (QueryResult.plain (rows.map (mkOut cfg db))
          (rows.map (mkOut cfg db)).length)) = Except.ok res := hres
      have harts : out ∈ rows.map (mkOut cfg db) := by
        by_cases hg : (cfg.group_by == some "source") = true
        · rw [if_pos hg] at hres2
          injection hres2 with hres2
          rw [← hres2] at hout
          exact hout
        · rw [if_neg hg] at hres2
          injection hres2 with hres2
          rw [← hres2] at hout
          exact hout
      obtain ⟨row, hrowmem, hrowE⟩ := List.mem_map.mp harts
      have hrow_sorted : row ∈ sortedRows cfg env db :=
        paged_subset cfg (sortedRows cfg env db) rows hpg row hrowmem
      have hrow_grp : row ∈ groupedRows cfg env db :=
        ((sortLe_perm (rowLe cfg.sort_by) (groupedRows cfg env db)).mem_iff).mp
          hrow_sorted
      have hrow_filt : row ∈ filteredRows cfg env db := by
        unfold groupedRows at hrow_grp
        by_cases hd : (cfg.include_feedback || cfg.group_by == some "article") = true
        · rw [if_pos hd] at hrow_grp
          exact dedupe_subset [] _ row hrow_grp
        · rw [if_neg hd] at hrow_grp
          exact hrow_grp
      unfold filteredRows at hrow_filt
      obtain ⟨hrow_join, hwpass⟩ := List.mem_filter.mp hrow_filt
      have hadb := joinRows_article cfg db row hrow_join
      have htr : truthyStr cfg.search_query = true := by
        rw [hq]
        simp [truthyStr, hne]
      have hgetD : cfg.search_query.getD "" = q := by
        rw [hq]
        rfl
      have hscs : (searchFieldConds cfg (cfg.search_query.getD "")).isEmpty = false :=
        searchFieldConds_ne_empty cfg _ hscope
      have hany := all_conds_of_wherePass cfg env db row hwpass _
        (searchCond_mem cfg env db htr hscs)
      rw [hgetD] at hany
      have main := searchAny_implies cfg q row hany
      refine ⟨row.1, hadb, ?_, ?_⟩
      · rw [← hrowE]
        rfl
      · rcases main with ⟨hsc, hlm⟩ | ⟨hsc, c, hc, hlm⟩ | ⟨hsc, s, hs, hlm⟩
        · exact Or.inl ⟨hsc, (likeMatch_iff q _ hw).mp hlm⟩
        · exact Or.inr (Or.inl ⟨hsc, c, hc, (likeMatch_iff q _ hw).mp hlm⟩)
        · exact Or.inr (Or.inr ⟨hsc, s, hs, (likeMatch_iff q _ hw).mp hlm⟩)

/-- Claim C7 counterexample: the query with search string `"ai"` and
scope `title` returns the article titled `"AI"`, yet `"ai"` does not
occur in `"AI"` under case-sensitive substring matching — SQLite `LIKE`
is ASCII-case-insensitive, so the claim as stated is false. -/
theorem C7_counterexample :
    queryCompute cfg7 envW db7 =
      Except.ok (QueryResult.plain [OutArticle.mk a7 none] 1) ∧
    ¬ OccursIn "ai" "AI" := by
  constructor
  · rfl
  · intro h
    have hb := (containsCS_iff "ai" "AI").mpr h
    exact absurd hb (by decide)

/-- Claim C7 witness: the amended only-if statement applied to the
concrete store (the returned article's title contains `"ai"`
case-insensitively). -/
theorem C7_witness :
    noWild "ai" = true ∧
      SearchOnlyIf cfg7 db7 "ai" (OutArticle.mk a7 none) :=
  ⟨by decide,
    C7_search_scope_only_if cfg7 envW db7 "ai" rfl (by decide) (by decide)
      (Or.inr (Or.inl rfl)) (QueryResult.plain [OutArticle.mk a7 none] 1) rfl
      (OutArticle.mk a7 none) (List.mem_singleton.mpr rfl)⟩

end News

